import Mathlib

/-!
# Verification of the MyAgentive session orchestration core

A shallow embedding, in Lean 4, of the session orchestration core of the
MyAgentive relay server: the SQLite-backed repositories
(`session-repo.ts`, `message-repo.ts`), the engine connection wrapper
(`ai-client.ts`), and the `ManagedSession` / `SessionManager` pair
(`session-manager.ts`).

Modelling conventions:
- JavaScript `Map` objects become association lists `List (κ × β)` in
  insertion order; `Map.get` is `lookupA`, `Map.set` is `setA`
  (update-in-place when the key is present, append otherwise),
  `Map.delete` is `eraseA` (removal of the first entry under the key —
  the only one, since a JS `Map` never holds two entries under one
  key).
- UUIDs become naturals drawn from a `nextId` counter; `new Date()`
  timestamps become a strictly increasing `clock : Nat`.
- Callbacks are opaque: a subscription stores a callback id and a
  `CbEnv` environment says, per (id, event), whether the callback
  returns normally (`true`) or throws (`false`).
- Exceptions thrown by the external engine SDK are an oracle
  `EngineEnv.sendThrows` over (managed-session instance id, engine
  generation, content); the concrete `AgentSession.sendMessage` in
  `ai-client.ts` is additionally embedded directly (`AgentSession`).
- Stateful methods become state-passing functions; methods whose
  observable behaviour matters beyond their return value additionally
  produce a trace of `Effect`s in execution order.
-/

namespace MyAgentive

/-! ## Association lists modelling JavaScript Map -/

/-- `Map.get`. -/
def lookupA {α β : Type} [DecidableEq α] : List (α × β) → α → Option β
  | [], _ => none
  | p :: t, k => if p.1 = k then some p.2 else lookupA t k

/-- Update-in-place of the entry under `k` (which keeps insertion order). -/
def updateA {α β : Type} [DecidableEq α] (l : List (α × β)) (k : α) (v : β) : List (α × β) :=
  l.map (fun p => if p.1 = k then (k, v) else p)

/-- `Map.set`: update in place when the key is present, append otherwise. -/
def setA {α β : Type} [DecidableEq α] (l : List (α × β)) (k : α) (v : β) : List (α × β) :=
  if (lookupA l k).isSome then updateA l k v else l ++ [(k, v)]

/-- `Map.delete`: remove the entry under `k`. -/
def eraseA {α β : Type} [DecidableEq α] : List (α × β) → α → List (α × β)
  | [], _ => []
  | p :: t, k => if p.1 = k then t else p :: eraseA t k

/-! ## `slugify` (session-repo.ts)

```js
text.toLowerCase().trim()
    .replace(/[^\w\s-]/g, "")
    .replace(/[\s_-]+/g, "-")
    .replace(/^-+|-+$/g, "")
```
-/

/-- JS regex `\w` (ASCII word character). -/
def isWordJS (c : Char) : Bool :=
  (97 ≤ c.toNat && c.toNat ≤ 122) || (65 ≤ c.toNat && c.toNat ≤ 90) ||
  (48 ≤ c.toNat && c.toNat ≤ 57) || c == '_'

/-- JS regex `\s`, restricted to the common ASCII whitespace characters. -/
def isSpaceJS (c : Char) : Bool :=
  c == ' ' || c == '\t' || c == '\n' || c == '\r'

/-- The separator class `[\s_-]` of the run-collapsing replacement. -/
def isSepJS (c : Char) : Bool :=
  isSpaceJS c || c == '_' || c == '-'

/-- `String.prototype.trim`. -/
def trimJS (l : List Char) : List Char :=
  ((l.dropWhile isSpaceJS).reverse.dropWhile isSpaceJS).reverse

/-- `.replace(/[\s_-]+/g, "-")`: each maximal run of separator characters
becomes a single dash.  The Boolean argument records whether the previous
character was part of a separator run. -/
def collapseGo : Bool → List Char → List Char
  | _, [] => []
  | prevSep, c :: rest =>
    if isSepJS c then
      (if prevSep then collapseGo true rest else '-' :: collapseGo true rest)
    else c :: collapseGo false rest

def collapseRuns (l : List Char) : List Char := collapseGo false l

/-- `.replace(/^-+|-+$/g, "")`. -/
def trimDashes (l : List Char) : List Char :=
  ((l.dropWhile (fun c => c == '-')).reverse.dropWhile (fun c => c == '-')).reverse

def slugify (s : String) : String :=
  let cs := s.data.map Char.toLower
  let cs := trimJS cs
  let cs := cs.filter (fun c => isWordJS c || isSpaceJS c || c == '-')
  let cs := collapseRuns cs
  let cs := trimDashes cs
  String.mk cs

/-! ## Database model (database.ts schema, 001-initial.sql / 002-add-archived.sql) -/

inductive Role where
  | user
  | assistant
  | tool_use
  | tool_result
deriving DecidableEq, Repr

/-- A row of the `sessions` table.  `name` is declared `UNIQUE NOT NULL`. -/
structure DbSession where
  id : Nat
  name : String
  title : Option String
  created_at : Nat
  updated_at : Nat
  created_by : String
  archived : Bool
deriving DecidableEq, Repr

/-- A row of the `messages` table. -/
structure DbMessage where
  id : Nat
  session_id : Nat
  role : Role
  content : String
  timestamp : Nat
  source : Option String
  metadata : Option String
deriving DecidableEq, Repr

/-- The SQLite database state.  `nextId` models the UUID generator,
`clock` the wall clock read by `new Date().toISOString()` (bumped after
every statement so timestamps are strictly increasing), and `genName`
is the oracle for the random `generateSessionName()`. -/
structure Db where
  sessions : List DbSession
  messages : List DbMessage
  nextId : Nat
  clock : Nat
  genName : String
deriving DecidableEq, Repr

/-! ## sessionRepo (session-repo.ts) -/

structure CreateSessionInput where
  name : String
  title : Option String
  created_by : Option String
deriving DecidableEq, Repr

namespace sessionRepo

def getByName (db : Db) (name : String) : Option DbSession :=
  db.sessions.find? (fun s => s.name == name)

def getById (db : Db) (id : Nat) : Option DbSession :=
  db.sessions.find? (fun s => s.id == id)

/-- `sessionRepo.create`: slugifies a truthy (non-empty) requested name,
falls back to a generated name otherwise, then INSERTs.  The INSERT
violates the `UNIQUE` constraint on `sessions.name` when a row with the
same (slugified) name already exists; SQLite then throws and leaves the
database unchanged. -/
def create (db : Db) (input : CreateSessionInput) : Except String (DbSession × Db) :=
  let name := if input.name ≠ "" then slugify input.name else db.genName
  if db.sessions.any (fun s => s.name == name) then
    .error "UNIQUE constraint failed: sessions.name"
  else
    let sess : DbSession :=
      { id := db.nextId, name := name, title := input.title,
        created_at := db.clock, updated_at := db.clock,
        created_by := input.created_by.getD "web", archived := false }
    .ok (sess, { db with sessions := db.sessions ++ [sess],
                         nextId := db.nextId + 1, clock := db.clock + 1 })

/-- `sessionRepo.getOrCreateByName`: looks up the *raw* name, and creates
(with the *slugified* name) when the lookup misses. -/
def getOrCreateByName (db : Db) (name : String) (createdBy : String) :
    Except String (DbSession × Db) :=
  match getByName db name with
  | some s => .ok (s, db)
  | none => create db { name := name, title := none, created_by := some createdBy }

def archiveByName (db : Db) (name : String) : Bool × Db :=
  let found := db.sessions.any (fun s => s.name == name)
  (found,
   { db with
       sessions := db.sessions.map (fun s =>
         if s.name == name then { s with archived := true, updated_at := db.clock } else s),
       clock := db.clock + 1 })

def unarchiveByName (db : Db) (name : String) : Bool × Db :=
  let found := db.sessions.any (fun s => s.name == name)
  (found,
   { db with
       sessions := db.sessions.map (fun s =>
         if s.name == name then { s with archived := false, updated_at := db.clock } else s),
       clock := db.clock + 1 })

def updateTitle (db : Db) (id : Nat) (title : String) : Db :=
  { db with
      sessions := db.sessions.map (fun s =>
        if s.id == id then { s with title := some title, updated_at := db.clock } else s),
      clock := db.clock + 1 }

def touch (db : Db) (id : Nat) : Db :=
  { db with
      sessions := db.sessions.map (fun s =>
        if s.id == id then { s with updated_at := db.clock } else s),
      clock := db.clock + 1 }

/-- `sessionRepo.deleteByName`; messages cascade-delete with their
session (`ON DELETE CASCADE`). -/
def deleteByName (db : Db) (name : String) : Bool × Db :=
  let victims := (db.sessions.filter (fun s => s.name == name)).map (fun s => s.id)
  let found := db.sessions.any (fun s => s.name == name)
  (found,
   { db with
       sessions := db.sessions.filter (fun s => !(s.name == name)),
       messages := db.messages.filter (fun m => !(victims.contains m.session_id)) })

end sessionRepo

/-! ## messageRepo (message-repo.ts) -/

structure CreateMessageInput where
  session_id : Nat
  role : Role
  content : String
  source : Option String
  metadata : Option String
deriving DecidableEq, Repr

/-- Ascending-timestamp order used by `ORDER BY timestamp ASC`. -/
def byTimestamp (a b : DbMessage) : Prop := a.timestamp ≤ b.timestamp

instance : DecidableRel byTimestamp :=
  fun a b => inferInstanceAs (Decidable (a.timestamp ≤ b.timestamp))

namespace messageRepo

/-- `messageRepo.create`: INSERT the message, then `sessionRepo.touch`
the parent session (every append bumps the session's `updated_at`). -/
def create (db : Db) (input : CreateMessageInput) : DbMessage × Db :=
  let msg : DbMessage :=
    { id := db.nextId, session_id := input.session_id, role := input.role,
      content := input.content, timestamp := db.clock,
      source := input.source, metadata := input.metadata }
  let db := { db with messages := db.messages ++ [msg],
                      nextId := db.nextId + 1, clock := db.clock + 1 }
  (msg, sessionRepo.touch db input.session_id)

end messageRepo

/-- The `JOIN sessions ON m.session_id = s.id WHERE s.name = ?` part of
`messageRepo.getBySessionName`: every persisted message of the named
session. -/
def sessionMessagesAll (db : Db) (sessionName : String) : List DbMessage :=
  db.messages.filter (fun m =>
    match db.sessions.find? (fun s => s.id == m.session_id) with
    | some s => s.name == sessionName
    | none => false)

namespace messageRepo

/-- `messageRepo.getBySessionName`: join on `sessions.id`, filter by the
session name, `ORDER BY m.timestamp ASC LIMIT ?`.  The call sites that
omit the limit get the declared default of 100. -/
def getBySessionName (db : Db) (sessionName : String) (limit : Nat) : List DbMessage :=
  (List.insertionSort byTimestamp (sessionMessagesAll db sessionName)).take limit

end messageRepo

example : slugify "My Chat" = "my-chat" := by decide
example : slugify "my-chat" = "my-chat" := by decide

/-! ## AgentSession (ai-client.ts)

The engine connection wrapper.  The `MessageQueue` is modelled by its
list of queued contents; the consumer-side waiting/handoff machinery of
`push` only changes *who* holds the message, not the queue's observable
producer-side behaviour, so `push` is an append.  `close()` sets both
the session's and the queue's closed flag, merged into one field. -/

structure AgentSession where
  queueMessages : List String
  closed : Bool
deriving DecidableEq, Repr

/-- `new AgentSession()`. -/
def AgentSession.init : AgentSession := { queueMessages := [], closed := false }

/-- `AgentSession.sendMessage`: `if (!this.closed) { this.queue.push(content); }`.
Note the guard: on a closed session the message is silently discarded
and no exception is raised. -/
def AgentSession.sendMessage (a : AgentSession) (content : String) : AgentSession :=
  if a.closed then a else { a with queueMessages := a.queueMessages ++ [content] }

def AgentSession.close (a : AgentSession) : AgentSession :=
  { a with closed := true }

/-! ## Event shapes (types.ts) and effect traces -/

/-- The outgoing event shapes that `ManagedSession` itself emits
(types.ts `OutgoingWSMessage` restricted to those constructors; the
transport-level shapes `connected`/`history`/... are produced by
server.ts, outside this core).  `toolInput` is structured data carried
opaquely; it is modelled as a string. -/
inductive OutgoingWSMessage where
  | user_message (content sessionName source : String)
  | assistant_message (content sessionName : String)
  | tool_use (toolName toolId toolInput sessionName : String)
  | result (success : Bool) (sessionName : String) (cost duration : Option Nat)
  | error (error : String)
deriving DecidableEq, Repr

inductive ClientType where
  | web
  | telegram
deriving DecidableEq, Repr

def ClientType.label : ClientType → String
  | .web => "web"
  | .telegram => "telegram"

/-- types.ts `ClientSubscription`; the delivery callback is an opaque id
interpreted by a `CbEnv`. -/
structure ClientSubscription where
  clientId : String
  clientType : ClientType
  sessionName : String
  cb : Nat
deriving DecidableEq, Repr

/-- Callback environment: `ok id msg = true` iff callback `id` returns
normally when invoked with `msg` (false: it throws). -/
structure CbEnv where
  ok : Nat → OutgoingWSMessage → Bool

/-- Engine exception oracle: `sendThrows i g c` says whether the engine
SDK throws out of `sendMessage c` on the connection of managed-session
instance `i` in generation `g`; `errMsg` is that error's `.message`.
(The concrete `AgentSession.sendMessage` above never throws; the oracle
lets the recovery logic in `ManagedSession.sendMessage` be verified
against any engine behaviour.) -/
structure EngineEnv where
  sendThrows : Nat → Nat → String → Bool
  errMsg : Nat → Nat → String → String

/-- Observable effects of a core operation, in execution order. -/
inductive Effect where
  | persist (m : DbMessage)
  | deliver (clientId : String) (msg : OutgoingWSMessage)
  | activity (type summary : String)
  | engineSend (instanceId gen : Nat) (content : String) (ok : Bool)
  | engineReset (instanceId newGen : Nat)
  | startListen
  | engineClose (instanceId gen : Nat)
  | storeArchive (name : String)
  | storeDelete (name : String)
deriving DecidableEq, Repr

/-! ## ManagedSession (session-manager.ts) -/

/-- The runtime session object.  `instanceId` models JS object identity
of the `ManagedSession` (`new ManagedSession(...)`), `engineGen` models
object identity of its current `AgentSession` (bumped by
`resetAgentSession`).  `subscribers` is the `Map<string,
ClientSubscription>` keyed by clientId. -/
structure ManagedSession where
  instanceId : Nat
  sessionId : Nat
  sessionName : String
  agentSession : AgentSession
  engineGen : Nat
  subscribers : List (String × ClientSubscription)
  isListening : Bool
deriving DecidableEq, Repr

/-- The constructor `new ManagedSession(sessionId, sessionName, emitter)`. -/
def ManagedSession.init (instanceId sessionId : Nat) (sessionName : String) : ManagedSession :=
  { instanceId := instanceId, sessionId := sessionId, sessionName := sessionName,
    agentSession := AgentSession.init, engineGen := 0,
    subscribers := [], isListening := false }

/-- The body of `ManagedSession.broadcast`: iterate the subscriber map in
insertion order, invoke each callback (recorded as a `deliver` effect),
and on a throw delete that subscriber and continue with the rest. -/
def broadcastList (cb : CbEnv) (msg : OutgoingWSMessage) :
    List (String × ClientSubscription) →
    List (String × ClientSubscription) × List Effect
  | [] => ([], [])
  | p :: rest =>
    let r := broadcastList cb msg rest
    if cb.ok p.2.cb msg then (p :: r.1, Effect.deliver p.1 msg :: r.2)
    else (r.1, Effect.deliver p.1 msg :: r.2)

def ManagedSession.broadcast (cb : CbEnv) (ms : ManagedSession) (msg : OutgoingWSMessage) :
    ManagedSession × List Effect :=
  let r := broadcastList cb msg ms.subscribers
  ({ ms with subscribers := r.1 }, r.2)

def ManagedSession.broadcastError (cb : CbEnv) (ms : ManagedSession) (e : String) :
    ManagedSession × List Effect :=
  ms.broadcast cb (.error e)

/-- `resetAgentSession`: close the broken connection (errors ignored),
replace it with a fresh `AgentSession`, clear the listening flag. -/
def ManagedSession.resetAgentSession (ms : ManagedSession) : ManagedSession :=
  { ms with agentSession := AgentSession.init, engineGen := ms.engineGen + 1,
            isListening := false }

/-- `ManagedSession.sendMessage(content, source)`:
1. persist the user message, 2. broadcast `user_message`, 3. emit an
activity event (truncated summary), 4. try the engine send, on a throw
reset the agent session and retry once, on a second throw broadcast an
error and return, 5. start the listening loop if not already running
(the loop body runs as a background task; here its start is the
`startListen` effect plus `isListening := true`, the synchronous prefix
of `startListening`). -/
def ManagedSession.sendMessage (env : EngineEnv) (cb : CbEnv) (db : Db)
    (ms : ManagedSession) (content : String) (source : String) :
    Db × ManagedSession × List Effect :=
  let r1 := messageRepo.create db
    { session_id := ms.sessionId, role := .user, content := content,
      source := some source, metadata := none }
  let db := r1.2
  let r2 := ms.broadcast cb (.user_message content ms.sessionName source)
  let ms := r2.1
  let tr := Effect.persist r1.1 :: r2.2 ++
    [Effect.activity "message" ("User: " ++ content.take 100 ++ "...")]
  if env.sendThrows ms.instanceId ms.engineGen content then
    let tr := tr ++ [Effect.engineSend ms.instanceId ms.engineGen content false]
    let ms := ms.resetAgentSession
    let tr := tr ++ [Effect.engineReset ms.instanceId ms.engineGen]
    if env.sendThrows ms.instanceId ms.engineGen content then
      let tr := tr ++ [Effect.engineSend ms.instanceId ms.engineGen content false]
      let r3 := ms.broadcastError cb
        ("Failed to send message: " ++ env.errMsg ms.instanceId ms.engineGen content)
      (db, r3.1, tr ++ r3.2)
    else
      let ms := { ms with agentSession := ms.agentSession.sendMessage content }
      let tr := tr ++ [Effect.engineSend ms.instanceId ms.engineGen content true]
      if ms.isListening then (db, ms, tr)
      else (db, { ms with isListening := true }, tr ++ [Effect.startListen])
  else
    let ms := { ms with agentSession := ms.agentSession.sendMessage content }
    let tr := tr ++ [Effect.engineSend ms.instanceId ms.engineGen content true]
    if ms.isListening then (db, ms, tr)
    else (db, { ms with isListening := true }, tr ++ [Effect.startListen])

/-! ### The listening loop -/

/-- A content block of an SDK `assistant` message. -/
inductive ContentBlock where
  | text (text : String)
  | tool_use (name id input : String)
  | other
deriving DecidableEq, Repr

/-- An event pulled from `agentSession.getOutputStream()`. -/
inductive SDKMessage where
  | assistantStr (content : String)
  | assistantBlocks (content : List ContentBlock)
  | result (subtype : String) (total_cost_usd duration_ms : Option Nat)
  | other
deriving DecidableEq, Repr

/-- `storeAndBroadcastAssistant`: persist the assistant chunk
(source "agent"), then broadcast `assistant_message`. -/
def ManagedSession.storeAndBroadcastAssistant (cb : CbEnv) (db : Db)
    (ms : ManagedSession) (content : String) : Db × ManagedSession × List Effect :=
  let r1 := messageRepo.create db
    { session_id := ms.sessionId, role := .assistant, content := content,
      source := some "agent", metadata := none }
  let r2 := ms.broadcast cb (.assistant_message content ms.sessionName)
  (r1.2, r2.1, Effect.persist r1.1 :: r2.2)

/-- The `for (const block of content)` body of `handleSDKMessage`. -/
def ManagedSession.handleBlocks (cb : CbEnv) :
    List ContentBlock → Db → ManagedSession → Db × ManagedSession × List Effect
  | [], db, ms => (db, ms, [])
  | b :: rest, db, ms =>
    match b with
    | .text t =>
      let (db, ms, tr) := ms.storeAndBroadcastAssistant cb db t
      let (db, ms, tr2) := ManagedSession.handleBlocks cb rest db ms
      (db, ms, tr ++ tr2)
    | .tool_use name id input =>
      let (ms, tr) := ms.broadcast cb (.tool_use name id input ms.sessionName)
      let tr := tr ++ [Effect.activity "tool_use" ("Tool: " ++ name)]
      let (db, ms, tr2) := ManagedSession.handleBlocks cb rest db ms
      (db, ms, tr ++ tr2)
    | .other => ManagedSession.handleBlocks cb rest db ms

/-- `handleSDKMessage`. -/
def ManagedSession.handleSDKMessage (cb : CbEnv) (db : Db) (ms : ManagedSession) :
    SDKMessage → Db × ManagedSession × List Effect
  | .assistantStr content => ms.storeAndBroadcastAssistant cb db content
  | .assistantBlocks blocks => ManagedSession.handleBlocks cb blocks db ms
  | .result subtype cost duration =>
    let (ms, tr) := ms.broadcast cb
      (.result (subtype == "success") ms.sessionName cost duration)
    (db, ms, tr)
  | .other => (db, ms, [])

/-- The `for await` body of `startListening`, over a stream of SDK
messages given as data. -/
def ManagedSession.listenLoop (cb : CbEnv) :
    List SDKMessage → Db → ManagedSession → Db × ManagedSession × List Effect
  | [], db, ms => (db, ms, [])
  | m :: rest, db, ms =>
    let (db, ms, tr) := ms.handleSDKMessage cb db m
    let (db, ms, tr2) := ManagedSession.listenLoop cb rest db ms
    (db, ms, tr ++ tr2)

/-- `startListening`: no-op when already listening; otherwise set the
flag, drain the stream, on a stream exception broadcast an error and
emit an activity error event, and finally clear the flag.  The stream's
events and its optional terminal exception are parameters. -/
def ManagedSession.startListening (cb : CbEnv) (stream : List SDKMessage)
    (streamErr : Option String) (db : Db) (ms : ManagedSession) :
    Db × ManagedSession × List Effect :=
  if ms.isListening then (db, ms, [])
  else
    let ms := { ms with isListening := true }
    let (db, ms, tr) := ManagedSession.listenLoop cb stream db ms
    match streamErr with
    | none => (db, { ms with isListening := false }, tr)
    | some e =>
      let (ms, tr2) := ms.broadcastError cb e
      (db, { ms with isListening := false },
       tr ++ tr2 ++ [Effect.activity "error" ("Session error: " ++ e)])

/-- `subscribe`: `Map.set` keyed by clientId. -/
def ManagedSession.subscribe (ms : ManagedSession) (clientId : String)
    (ct : ClientType) (cbId : Nat) : ManagedSession :=
  let sub : ClientSubscription :=
    { clientId := clientId, clientType := ct,
      sessionName := ms.sessionName, cb := cbId }
  { ms with subscribers := setA ms.subscribers clientId sub }

/-- `unsubscribe`: `Map.delete`. -/
def ManagedSession.unsubscribe (ms : ManagedSession) (clientId : String) : ManagedSession :=
  { ms with subscribers := eraseA ms.subscribers clientId }

def ManagedSession.hasSubscribers (ms : ManagedSession) : Bool :=
  !ms.subscribers.isEmpty

def ManagedSession.close (ms : ManagedSession) : ManagedSession :=
  { ms with agentSession := ms.agentSession.close }

/-! ## SessionManager (session-manager.ts)

Methods that can throw return `Except String _` for the result *and*
the post-state: a JS exception propagates to the transport layer, but
mutations performed before the throw persist. -/

structure SessionManager where
  sessions : List (String × ManagedSession)
  clientSessions : List (String × String)
  nextInstanceId : Nat
  db : Db
deriving DecidableEq, Repr

namespace SessionManager

/-- `getOrCreateSession`: return the in-memory session when present;
otherwise resolve/create the durable row and wrap it.  Note: the
registry map is keyed by the *raw* requested `name`, while the new
`ManagedSession` carries `dbSession.name` (the slugified stored name). -/
def getOrCreateSession (m : SessionManager) (name : String) (createdBy : String) :
    Except String ManagedSession × SessionManager :=
  match lookupA m.sessions name with
  | some s => (.ok s, m)
  | none =>
    match sessionRepo.getOrCreateByName m.db name createdBy with
    | .error e => (.error e, m)
    | .ok (dbSession, db) =>
      let s := ManagedSession.init m.nextInstanceId dbSession.id dbSession.name
      (.ok s,
       { m with db := db, sessions := m.sessions ++ [(name, s)],
                nextInstanceId := m.nextInstanceId + 1 })

def getSession (m : SessionManager) (name : String) : Option ManagedSession :=
  lookupA m.sessions name

/-- `unsubscribeClient`: remove the client's subscription from whichever
session the client-to-session map records, then drop the map entry. -/
def unsubscribeClient (m : SessionManager) (clientId : String) : SessionManager :=
  match lookupA m.clientSessions clientId with
  | none => m
  | some name =>
    let m :=
      match lookupA m.sessions name with
      | none => m
      | some s => { m with sessions := updateA m.sessions name (s.unsubscribe clientId) }
    { m with clientSessions := eraseA m.clientSessions clientId }

/-- `subscribeClient`: unsubscribe from any previous session, resolve or
create the target session, register the subscription, record the
client-to-session mapping. -/
def subscribeClient (m : SessionManager) (clientId sessionName : String)
    (ct : ClientType) (cbId : Nat) : Except String ManagedSession × SessionManager :=
  let m1 := m.unsubscribeClient clientId
  let r := m1.getOrCreateSession sessionName ct.label
  match r.1 with
  | .error e => (.error e, r.2)
  | .ok s =>
    let s := s.subscribe clientId ct cbId
    (.ok s,
     { r.2 with sessions := updateA r.2.sessions sessionName s,
                clientSessions := setA r.2.clientSessions clientId sessionName })

/-- `sendMessage(clientId, content, source)`: look up the client's
session; throw "not subscribed" when the client has no mapping, throw
"not found" when the mapped session is not live, else delegate. -/
def sendMessage (env : EngineEnv) (cb : CbEnv) (m : SessionManager)
    (clientId content source : String) :
    Except String Unit × SessionManager × List Effect :=
  match lookupA m.clientSessions clientId with
  | none => (.error ("Client " ++ clientId ++ " is not subscribed to any session"), m, [])
  | some name =>
    match lookupA m.sessions name with
    | none => (.error ("Session " ++ name ++ " not found"), m, [])
    | some s =>
      let (db, s2, tr) := s.sendMessage env cb m.db content source
      (.ok (), { m with db := db, sessions := updateA m.sessions name s2 }, tr)

/-- `archiveSession`: close and evict the live session first (when one
exists), then delegate to the store.  The trace records the ordering. -/
def archiveSession (m : SessionManager) (name : String) :
    Bool × SessionManager × List Effect :=
  let pre :=
    match lookupA m.sessions name with
    | some s => ({ m with sessions := eraseA m.sessions name },
                 [Effect.engineClose s.instanceId s.engineGen])
    | none => (m, [])
  let r := sessionRepo.archiveByName pre.1.db name
  (r.1, { pre.1 with db := r.2 }, pre.2 ++ [Effect.storeArchive name])

def unarchiveSession (m : SessionManager) (name : String) : Bool × SessionManager :=
  let r := sessionRepo.unarchiveByName m.db name
  (r.1, { m with db := r.2 })

/-- `deleteSession`: close and evict the live session first, then
delegate the durable delete. -/
def deleteSession (m : SessionManager) (name : String) :
    Bool × SessionManager × List Effect :=
  let pre :=
    match lookupA m.sessions name with
    | some s => ({ m with sessions := eraseA m.sessions name },
                 [Effect.engineClose s.instanceId s.engineGen])
    | none => (m, [])
  let r := sessionRepo.deleteByName pre.1.db name
  (r.1, { pre.1 with db := r.2 }, pre.2 ++ [Effect.storeDelete name])

/-- `getSessionMessages`: calls `messageRepo.getBySessionName` without a
limit argument, so the repository default of 100 applies. -/
def getSessionMessages (m : SessionManager) (sessionName : String) : List DbMessage :=
  messageRepo.getBySessionName m.db sessionName 100

def getClientSession (m : SessionManager) (clientId : String) : Option String :=
  lookupA m.clientSessions clientId

def renameSession (m : SessionManager) (name newTitle : String) : Bool × SessionManager :=
  match sessionRepo.getByName m.db name with
  | none => (false, m)
  | some s => (true, { m with db := sessionRepo.updateTitle m.db s.id newTitle })

/-- `cleanup()`: close and evict every managed session with zero
subscribers. -/
def cleanup (m : SessionManager) : SessionManager × List Effect :=
  let victims := m.sessions.filter (fun p => p.2.subscribers.isEmpty)
  ({ m with sessions := m.sessions.filter (fun p => !(p.2.subscribers.isEmpty)) },
   victims.map (fun p => Effect.engineClose p.2.instanceId p.2.engineGen))

end SessionManager

/-! ## Registry operations as a step relation

Used to quantify over what can happen between two registry calls. -/

inductive Op where
  | getOrCreate (name createdBy : String)
  | subscribe (clientId sessionName : String) (ct : ClientType) (cbId : Nat)
  | unsubscribe (clientId : String)
  | send (clientId content source : String)
  | archive (name : String)
  | deleteOp (name : String)
  | cleanup
  | rename (name title : String)
  | unarchive (name : String)
deriving DecidableEq, Repr

/-- Applying one registry operation to the manager state (the state
after the call, whether or not the call threw). -/
def stepOp (env : EngineEnv) (cb : CbEnv) (op : Op) (m : SessionManager) : SessionManager :=
  match op with
  | .getOrCreate n c => (m.getOrCreateSession n c).2
  | .subscribe c n ct k => (m.subscribeClient c n ct k).2
  | .unsubscribe c => m.unsubscribeClient c
  | .send c content source => (SessionManager.sendMessage env cb m c content source).2.1
  | .archive n => (m.archiveSession n).2.1
  | .deleteOp n => (m.deleteSession n).2.1
  | .cleanup => m.cleanup.1
  | .rename n t => (m.renameSession n t).2
  | .unarchive n => (m.unarchiveSession n).2

def stepOps (env : EngineEnv) (cb : CbEnv) : List Op → SessionManager → SessionManager
  | [], m => m
  | op :: rest, m => stepOps env cb rest (stepOp env cb op m)

/-- Does `op`, applied at state `m`, remove session `name` from the
registry?  `archive name` and `deleteOp name` always do; `cleanup`
removes `name` exactly when the live session under `name` has an empty
subscriber set. -/
def removesName (m : SessionManager) (op : Op) (name : String) : Bool :=
  match op with
  | .archive n => n == name
  | .deleteOp n => n == name
  | .cleanup =>
    match lookupA m.sessions name with
    | some s => s.subscribers.isEmpty
    | none => false
  | _ => false

/-- All operations of the list, applied in order from `m`, leave
session `name` in the registry. -/
def NoRemoval (env : EngineEnv) (cb : CbEnv) (name : String) :
    SessionManager → List Op → Prop
  | _, [] => True
  | m, op :: rest =>
    removesName m op name = false ∧ NoRemoval env cb name (stepOp env cb op m) rest

/-! ## Lemmas about the Map model -/

section AssocLemmas

variable {α β : Type} [DecidableEq α]

@[simp] theorem lookupA_nil (k : α) : lookupA ([] : List (α × β)) k = none := rfl

theorem lookupA_cons (p : α × β) (t : List (α × β)) (k : α) :
    lookupA (p :: t) k = if p.1 = k then some p.2 else lookupA t k := rfl

theorem lookupA_append_left {l l2 : List (α × β)} {k : α} {v : β}
    (h : lookupA l k = some v) : lookupA (l ++ l2) k = some v := by
  induction l with
  | nil => exact absurd h (by simp)
  | cons p t ih =>
    rw [List.cons_append, lookupA_cons]
    rw [lookupA_cons] at h
    by_cases hp : p.1 = k
    · rw [if_pos hp] at h ⊢; exact h
    · rw [if_neg hp] at h ⊢; exact ih h

theorem lookupA_append_right {l : List (α × β)} {k : α} (l2 : List (α × β))
    (h : lookupA l k = none) : lookupA (l ++ l2) k = lookupA l2 k := by
  induction l with
  | nil => rfl
  | cons p t ih =>
    rw [lookupA_cons] at h
    rw [List.cons_append, lookupA_cons]
    by_cases hp : p.1 = k
    · rw [if_pos hp] at h; exact absurd h (by simp)
    · rw [if_neg hp] at h ⊢; exact ih h

theorem lookupA_updateA (l : List (α × β)) (k k2 : α) (v : β) :
    lookupA (updateA l k v) k2 =
      if k2 = k then (lookupA l k).map (fun _ => v) else lookupA l k2 := by
  induction l with
  | nil => by_cases h : k2 = k <;> simp [updateA, h]
  | cons p t ih =>
    have hu : updateA (p :: t) k v = (if p.1 = k then (k, v) else p) :: updateA t k v := rfl
    rw [hu]
    by_cases hp : p.1 = k
    · by_cases h2 : k2 = k
      · subst h2; simp [lookupA_cons, hp]
      · have hk2 : ¬ k = k2 := fun h => h2 h.symm
        simp [lookupA_cons, hp, h2, hk2, ih]
    · by_cases h2 : k2 = k
      · subst h2; simp [lookupA_cons, hp, ih]
      · by_cases hpk2 : p.1 = k2 <;> simp [lookupA_cons, hp, h2, hpk2, ih]

theorem lookupA_eraseA_ne {k2 k : α} (l : List (α × β)) (h : k2 ≠ k) :
    lookupA (eraseA l k) k2 = lookupA l k2 := by
  induction l with
  | nil => rfl
  | cons p t ih =>
    rw [eraseA]
    by_cases hp : p.1 = k
    · rw [if_pos hp, lookupA_cons, if_neg (fun hk : p.1 = k2 => h (hp ▸ hk).symm)]
    · rw [if_neg hp, lookupA_cons, lookupA_cons]
      by_cases hpk2 : p.1 = k2 <;> simp [hpk2, ih]

theorem lookupA_eq_none (l : List (α × β)) (k : α) (h : k ∉ l.map Prod.fst) :
    lookupA l k = none := by
  induction l with
  | nil => rfl
  | cons p t ih =>
    rw [List.map_cons, List.mem_cons] at h
    push_neg at h
    rw [lookupA_cons, if_neg (fun hp : p.1 = k => h.1 hp.symm)]
    exact ih h.2

theorem mem_keys_of_lookupA {l : List (α × β)} {k : α}
    (h : (lookupA l k).isSome) : k ∈ l.map Prod.fst := by
  induction l with
  | nil => simp [lookupA] at h
  | cons p t ih =>
    rw [lookupA_cons] at h
    rw [List.map_cons, List.mem_cons]
    by_cases hp : p.1 = k
    · exact Or.inl hp.symm
    · rw [if_neg hp] at h; exact Or.inr (ih h)

theorem lookupA_eraseA_self {l : List (α × β)} (k : α)
    (hnd : (l.map Prod.fst).Nodup) : lookupA (eraseA l k) k = none := by
  induction l with
  | nil => rfl
  | cons p t ih =>
    rw [List.map_cons, List.nodup_cons] at hnd
    rw [eraseA]
    by_cases hp : p.1 = k
    · rw [if_pos hp]
      exact lookupA_eq_none t k (hp ▸ hnd.1)
    · rw [if_neg hp, lookupA_cons, if_neg hp]
      exact ih hnd.2

theorem lookupA_setA (l : List (α × β)) (k k2 : α) (v : β) :
    lookupA (setA l k v) k2 = if k2 = k then some v else lookupA l k2 := by
  unfold setA
  by_cases hs : (lookupA l k).isSome
  · rw [if_pos hs, lookupA_updateA]
    rcases Option.isSome_iff_exists.mp hs with ⟨w, hw⟩
    by_cases h2 : k2 = k <;> simp [h2, hw]
  · rw [if_neg hs]
    have hnone : lookupA l k = none := Option.not_isSome_iff_eq_none.mp hs
    by_cases h2 : k2 = k
    · subst h2
      rw [lookupA_append_right _ hnone, lookupA_cons]
      simp
    · cases hl2 : lookupA l k2 with
      | some w => rw [lookupA_append_left hl2, if_neg h2]
      | none =>
        rw [lookupA_append_right _ hl2, if_neg h2, lookupA_cons,
            if_neg (fun h : k = k2 => h2 h.symm)]
        rfl

theorem keys_updateA (l : List (α × β)) (k : α) (v : β) :
    (updateA l k v).map Prod.fst = l.map Prod.fst := by
  induction l with
  | nil => rfl
  | cons p t ih =>
    have hu : updateA (p :: t) k v = (if p.1 = k then (k, v) else p) :: updateA t k v := rfl
    rw [hu, List.map_cons, List.map_cons, ih]
    by_cases hp : p.1 = k <;> simp [hp]

theorem eraseA_sublist (l : List (α × β)) (k : α) : (eraseA l k).Sublist l := by
  induction l with
  | nil => exact List.Sublist.refl _
  | cons p t ih =>
    rw [eraseA]
    by_cases hp : p.1 = k
    · rw [if_pos hp]; exact List.sublist_cons_self p t
    · rw [if_neg hp]; exact ih.cons₂ p

theorem nodup_keys_eraseA {l : List (α × β)} (k : α)
    (h : (l.map Prod.fst).Nodup) : ((eraseA l k).map Prod.fst).Nodup :=
  List.Nodup.sublist (List.Sublist.map Prod.fst (eraseA_sublist l k)) h

theorem nodup_keys_updateA {l : List (α × β)} (k : α) (v : β)
    (h : (l.map Prod.fst).Nodup) : ((updateA l k v).map Prod.fst).Nodup := by
  rw [keys_updateA]; exact h

theorem lookupA_isSome_of_mem_keys {l : List (α × β)} {k : α}
    (h : k ∈ l.map Prod.fst) : (lookupA l k).isSome := by
  induction l with
  | nil => exact absurd h (by simp)
  | cons p t ih =>
    rw [List.map_cons, List.mem_cons] at h
    rw [lookupA_cons]
    by_cases hp : p.1 = k
    · rw [if_pos hp]; rfl
    · rw [if_neg hp]
      exact ih (h.resolve_left (fun he => hp he.symm))

theorem nodup_keys_setA {l : List (α × β)} (k : α) (v : β)
    (h : (l.map Prod.fst).Nodup) : ((setA l k v).map Prod.fst).Nodup := by
  unfold setA
  by_cases hs : (lookupA l k).isSome
  · rw [if_pos hs]; exact nodup_keys_updateA k v h
  · rw [if_neg hs, List.map_append]
    have hk : k ∉ l.map Prod.fst := fun hmem => hs (lookupA_isSome_of_mem_keys hmem)
    exact List.nodup_append.mpr ⟨h, List.nodup_singleton k, by
      intro a ha hb
      simp at hb
      exact hk (hb ▸ ha)⟩

theorem lookupA_mem {l : List (α × β)} {k : α} {v : β}
    (h : lookupA l k = some v) : (k, v) ∈ l := by
  induction l with
  | nil => exact absurd h (by simp)
  | cons p t ih =>
    rw [lookupA_cons] at h
    by_cases hp : p.1 = k
    · rw [if_pos hp] at h
      have hv : p.2 = v := Option.some.inj h
      have : p = (k, v) := Prod.ext_iff.mpr ⟨hp, hv⟩
      rw [← this]
      exact List.mem_cons_self p t
    · rw [if_neg hp] at h
      exact List.mem_cons_of_mem p (ih h)

theorem lookupA_of_mem_nodup {l : List (α × β)} {k : α} {v : β}
    (hnd : (l.map Prod.fst).Nodup) (hmem : (k, v) ∈ l) : lookupA l k = some v := by
  induction l with
  | nil => exact absurd hmem (by simp)
  | cons p t ih =>
    rw [List.map_cons, List.nodup_cons] at hnd
    rw [lookupA_cons]
    rcases List.mem_cons.mp hmem with heq | hmem2
    · rw [← heq]; simp
    · by_cases hp : p.1 = k
      · exact absurd (List.mem_map.mpr ⟨(k, v), hmem2, rfl⟩) (hp ▸ hnd.1)
      · rw [if_neg hp]; exact ih hnd.2 hmem2

/-- Number of entries stored under key `k`. -/
def countKeyA (l : List (α × β)) (k : α) : Nat :=
  l.countP (fun p => decide (p.1 = k))

theorem countKeyA_of_nodup {l : List (α × β)} {k : α}
    (hnd : (l.map Prod.fst).Nodup) (h : (lookupA l k).isSome) :
    countKeyA l k = 1 := by
  induction l with
  | nil => simp [lookupA] at h
  | cons p t ih =>
    rw [List.map_cons, List.nodup_cons] at hnd
    rw [lookupA_cons] at h
    rw [countKeyA, List.countP_cons]
    by_cases hp : p.1 = k
    · have hzero : t.countP (fun p => decide (p.1 = k)) = 0 := by
        rw [List.countP_eq_zero]
        intro q hq
        simp only [decide_eq_true_eq]
        intro hqk
        exact (hp ▸ hnd.1) (List.mem_map.mpr ⟨q, hq, hqk⟩)
      simp [hp, hzero]
    · rw [if_neg hp] at h
      have := ih hnd.2 h
      rw [countKeyA] at this
      simp [hp, this]

theorem lookupA_filter_of_pred (l : List (α × β)) (k : α) (q : α × β → Bool)
    (h : ∀ p ∈ l, p.1 = k → q p = true) :
    lookupA (l.filter q) k = lookupA l k := by
  induction l with
  | nil => rfl
  | cons p t ih =>
    rw [List.filter_cons]
    by_cases hq : q p = true
    · rw [if_pos hq, lookupA_cons, lookupA_cons]
      by_cases hp : p.1 = k
      · rw [if_pos hp, if_pos hp]
      · rw [if_neg hp, if_neg hp]
        exact ih fun p2 h2 => h p2 (List.mem_cons_of_mem p h2)
    · have hp : ¬ p.1 = k := fun hk => hq (h p (List.mem_cons_self p t) hk)
      rw [if_neg (by simpa using hq), lookupA_cons, if_neg hp]
      exact ih fun p2 h2 => h p2 (List.mem_cons_of_mem p h2)

end AssocLemmas

/-! ## Lemmas about broadcast -/

theorem broadcastList_fst (cb : CbEnv) (msg : OutgoingWSMessage)
    (l : List (String × ClientSubscription)) :
    (broadcastList cb msg l).1 = l.filter (fun p => cb.ok p.2.cb msg) := by
  induction l with
  | nil => rfl
  | cons p t ih =>
    rw [List.filter_cons]
    by_cases h : cb.ok p.2.cb msg = true <;> simp [broadcastList, h, ih]

theorem broadcastList_snd (cb : CbEnv) (msg : OutgoingWSMessage)
    (l : List (String × ClientSubscription)) :
    (broadcastList cb msg l).2 = l.map (fun p => Effect.deliver p.1 msg) := by
  induction l with
  | nil => rfl
  | cons p t ih =>
    by_cases h : cb.ok p.2.cb msg = true <;> simp [broadcastList, h, ih]

/-! ## Claim theorems -/

/-- **C5** (confirmed).  During a single `broadcast` call of a
`ManagedSession`, if subscriber `a`'s callback throws on the event while
subscriber `b`'s returns normally, then `b` is still invoked with the
event in that same broadcast call (a `deliver` effect to `b` is
emitted), `a` is removed from the subscriber set afterwards, and `b`
remains subscribed.  The broadcast is a total function of the state —
the per-subscriber try/catch means no callback exception escapes to the
operation that triggered the broadcast. -/
theorem c5_subscriber_isolation (cb : CbEnv) (msg : OutgoingWSMessage)
    (ms : ManagedSession) (a b : String × ClientSubscription)
    (ha : a ∈ ms.subscribers) (hb : b ∈ ms.subscribers)
    (hthrow : cb.ok a.2.cb msg = false) (hok : cb.ok b.2.cb msg = true) :
    Effect.deliver b.1 msg ∈ (ms.broadcast cb msg).2 ∧
    a ∉ (ms.broadcast cb msg).1.subscribers ∧
    b ∈ (ms.broadcast cb msg).1.subscribers := by
  unfold ManagedSession.broadcast
  refine ⟨?_, ?_, ?_⟩
  · rw [broadcastList_snd]
    exact List.mem_map.mpr ⟨b, hb, rfl⟩
  · simp only [broadcastList_fst]
    intro hmem
    rw [List.mem_filter, hthrow] at hmem
    exact absurd hmem.2 (by simp)
  · simp only [broadcastList_fst]
    exact List.mem_filter.mpr ⟨hb, hok⟩

/-- Callback environment for the C5 witness: callback id 0 throws on
every event, callback id 1 always returns normally. -/
def cbW : CbEnv := { ok := fun id _ => id == 1 }

def subW (c : String) (id : Nat) : String × ClientSubscription :=
  (c, { clientId := c, clientType := .web, sessionName := "s", cb := id })

def msW : ManagedSession :=
  { instanceId := 0, sessionId := 0, sessionName := "s",
    agentSession := AgentSession.init, engineGen := 0,
    subscribers := [subW "a" 0, subW "b" 1], isListening := false }

theorem c5_subscriber_isolation_witness :
    Effect.deliver "b" (.error "boom") ∈ (msW.broadcast cbW (.error "boom")).2 ∧
    subW "a" 0 ∉ (msW.broadcast cbW (.error "boom")).1.subscribers ∧
    subW "b" 1 ∈ (msW.broadcast cbW (.error "boom")).1.subscribers :=
  c5_subscriber_isolation cbW (.error "boom") msW (subW "a" 0) (subW "b" 1)
    (by simp [msW]) (by simp [msW, subW]) (by decide) (by decide)

/-- **C4** (corrected): counterexample to the claim as stated.  The
claim says `AgentSession.sendMessage` *fails (throws)* whenever the
connection has already been closed by a prior `close()`.  In the source
(`ai-client.ts`) the method body is
`if (!this.closed) { this.queue.push(content); }` — on a closed
connection it returns normally and the message is silently discarded:
the call after `close()` leaves the session entirely unchanged (nothing
enqueued) and produces no failure. -/
theorem c4_send_after_close_counterexample :
    (AgentSession.init.close).sendMessage "hello" = AgentSession.init.close ∧
    ((AgentSession.init.close).sendMessage "hello").queueMessages = [] ∧
    (AgentSession.init.close).closed = true := by
  refine ⟨rfl, rfl, rfl⟩

/-- **C4** (corrected, amended claim): `AgentSession.sendMessage`
enqueues the user turn when the connection is open; when the connection
has already been closed by a prior `close()` it is a silent no-op — the
message is discarded and no exception is raised. -/
theorem c4_send_amended (a : AgentSession) (content : String) :
    (a.closed = false → a.sendMessage content =
      { a with queueMessages := a.queueMessages ++ [content] }) ∧
    (a.closed = true → a.sendMessage content = a) := by
  constructor <;> intro h <;> simp [AgentSession.sendMessage, h]

theorem c4_send_amended_witness :
    AgentSession.init.sendMessage "m" =
      { AgentSession.init with queueMessages := AgentSession.init.queueMessages ++ ["m"] } ∧
    (AgentSession.init.close).sendMessage "m" = AgentSession.init.close :=
  ⟨(c4_send_amended AgentSession.init "m").1 rfl,
   (c4_send_amended (AgentSession.init.close) "m").2 rfl⟩

/-! ### C7: `getOrCreateByName` is not idempotent for non-slug names -/

/-- An empty database with fresh counters. -/
def dbEmpty : Db :=
  { sessions := [], messages := [], nextId := 0, clock := 0, genName := "bright-owl-1" }

/-- The row created by the first `getOrCreateByName "My Chat"`: note the
stored name is the slug `"my-chat"`, not the requested name. -/
def myChatRow : DbSession :=
  { id := 0, name := "my-chat", title := none, created_at := 0, updated_at := 0,
    created_by := "web", archived := false }

def dbAfterMyChat : Db :=
  { sessions := [myChatRow], messages := [], nextId := 1, clock := 1,
    genName := "bright-owl-1" }

/-- **C7** (code_bug).  `sessionRepo.getOrCreateByName` looks up the raw
requested name but inserts the slugified name into the `UNIQUE` column
`sessions.name`.  On the failing input "My Chat" (twice, starting from
an empty store): the first call succeeds and stores the row under
"my-chat"; the second call's lookup of the raw name "My Chat" misses,
so it INSERTs "my-chat" again and dies on the UNIQUE constraint instead
of returning the existing session.  (Third conjunct: the same row *is*
returned when asked for by its slug, confirming the mismatch is between
the raw lookup and the slugified insert.) -/
theorem c7_getOrCreate_unique_violation :
    sessionRepo.getOrCreateByName dbEmpty "My Chat" "web" = .ok (myChatRow, dbAfterMyChat) ∧
    sessionRepo.getOrCreateByName dbAfterMyChat "My Chat" "web" =
      .error "UNIQUE constraint failed: sessions.name" ∧
    sessionRepo.getOrCreateByName dbAfterMyChat "my-chat" "web" =
      .ok (myChatRow, dbAfterMyChat) := by
  refine ⟨rfl, rfl, rfl⟩

/-! ### C9: raw-name keyed registry over a slug-keyed store -/

def mgr0 : SessionManager :=
  { sessions := [], clientSessions := [], nextInstanceId := 0, db := dbEmpty }

def msMyChat : ManagedSession := ManagedSession.init 0 0 "my-chat"

def msMyChat2 : ManagedSession := ManagedSession.init 1 0 "my-chat"

def mgr1 : SessionManager :=
  { sessions := [("My Chat", msMyChat)], clientSessions := [],
    nextInstanceId := 1, db := dbAfterMyChat }

def mgr2 : SessionManager :=
  { sessions := [("My Chat", msMyChat), ("my-chat", msMyChat2)], clientSessions := [],
    nextInstanceId := 2, db := dbAfterMyChat }

/-- **C9** (confirmed).  Calling `getOrCreateSession` with "My Chat" and
then with "my-chat" (names that slugify to the same stored slug)
produces two distinct live `ManagedSession` instances — each holding
its own fresh engine connection — both bound to the same durable
session id, because the registry map is keyed by the raw requested name
while the store persists the slugified name (one single row exists). -/
theorem c9_raw_name_aliasing :
    mgr0.getOrCreateSession "My Chat" "web" = (.ok msMyChat, mgr1) ∧
    mgr1.getOrCreateSession "my-chat" "web" = (.ok msMyChat2, mgr2) ∧
    msMyChat.instanceId ≠ msMyChat2.instanceId ∧
    msMyChat.sessionId = msMyChat2.sessionId ∧
    lookupA mgr2.sessions "My Chat" = some msMyChat ∧
    lookupA mgr2.sessions "my-chat" = some msMyChat2 ∧
    msMyChat.agentSession = AgentSession.init ∧
    msMyChat2.agentSession = AgentSession.init ∧
    mgr2.db.sessions = [myChatRow] := by
  refine ⟨rfl, rfl, by decide, rfl, rfl, rfl, rfl, rfl, rfl⟩

/-! ### C10: history is capped at the repository default of 100 -/

instance : IsTotal DbMessage byTimestamp :=
  ⟨fun a b => Nat.le_total a.timestamp b.timestamp⟩

instance : IsTrans DbMessage byTimestamp :=
  ⟨fun _ _ _ hab hbc => Nat.le_trans hab hbc⟩

/-- Executable check that every kept message is no newer than every
dropped one. -/
def oldestFirstOK (kept dropped : List DbMessage) : Bool :=
  kept.all (fun a => dropped.all (fun b => decide (a.timestamp ≤ b.timestamp)))

/-- **C10** (confirmed).  `SessionManager.getSessionMessages` invokes the
message repository without a limit, so the repository default of 100
applies: it returns the first 100 entries of the session's messages in
ascending timestamp order (the 100 oldest).  Its length is
`min (#persisted) 100`, so for a session holding more than 100
persisted messages the newest ones are silently absent, and every
returned message's timestamp is ≤ every omitted one's. -/
theorem c10_history_capped_at_100 (m : SessionManager) (name : String) :
    m.getSessionMessages name =
      (List.insertionSort byTimestamp (sessionMessagesAll m.db name)).take 100 ∧
    (m.getSessionMessages name).length = min (sessionMessagesAll m.db name).length 100 ∧
    List.Sorted byTimestamp (m.getSessionMessages name) ∧
    oldestFirstOK (m.getSessionMessages name)
      ((List.insertionSort byTimestamp (sessionMessagesAll m.db name)).drop 100) = true := by
  have hsorted : List.Sorted byTimestamp
      (List.insertionSort byTimestamp (sessionMessagesAll m.db name)) :=
    List.sorted_insertionSort byTimestamp (sessionMessagesAll m.db name)
  refine ⟨rfl, ?_, ?_, ?_⟩
  · show (List.take 100 _).length = _
    rw [List.length_take, (List.perm_insertionSort byTimestamp
      (sessionMessagesAll m.db name)).length_eq, Nat.min_comm]
  · exact List.Pairwise.sublist (List.take_sublist 100 _) hsorted
  · have hsplit := hsorted
    rw [← List.take_append_drop 100
      (List.insertionSort byTimestamp (sessionMessagesAll m.db name))] at hsplit
    have hcross := (List.pairwise_append.mp hsplit).2.2
    rw [oldestFirstOK, List.all_eq_true]
    intro a ha
    rw [List.all_eq_true]
    intro b hb
    exact decide_eq_true (hcross a ha b hb)

/-! ### C3: persistence precedes fan-out -/

/-- Folds a trace, accumulating the contents persisted so far as user
messages (first component) and as assistant messages (second). -/
def persAcc : List String × List String → List Effect → List String × List String
  | acc, [] => acc
  | acc, e :: rest =>
    match e with
    | .persist m =>
      match m.role with
      | .user => persAcc (m.content :: acc.1, acc.2) rest
      | .assistant => persAcc (acc.1, m.content :: acc.2) rest
      | _ => persAcc acc rest
    | _ => persAcc acc rest

/-- Scans a trace checking that every `user_message` /
`assistant_message` callback invocation carries a content that was
already persisted (with the matching role) strictly earlier in the
trace. -/
def appendThenBroadcast (acc : List String × List String) : List Effect → Bool
  | [] => true
  | e :: rest =>
    match e with
    | .persist m =>
      match m.role with
      | .user => appendThenBroadcast (m.content :: acc.1, acc.2) rest
      | .assistant => appendThenBroadcast (acc.1, m.content :: acc.2) rest
      | _ => appendThenBroadcast acc rest
    | .deliver _ msg =>
      match msg with
      | .user_message c _ _ => decide (c ∈ acc.1) && appendThenBroadcast acc rest
      | .assistant_message c _ => decide (c ∈ acc.2) && appendThenBroadcast acc rest
      | _ => appendThenBroadcast acc rest
    | _ => appendThenBroadcast acc rest

theorem appendThenBroadcast_append (t1 t2 : List Effect) (acc : List String × List String) :
    appendThenBroadcast acc (t1 ++ t2) =
      (appendThenBroadcast acc t1 && appendThenBroadcast (persAcc acc t1) t2) := by
  induction t1 generalizing acc with
  | nil => simp [appendThenBroadcast, persAcc]
  | cons e t ih =>
    cases e with
    | persist m =>
      obtain ⟨mid, msid, mrole, mcontent, mts, msrc, mmeta⟩ := m
      cases mrole <;> simp [appendThenBroadcast, persAcc, ih]
    | deliver c msg =>
      cases msg <;> simp [appendThenBroadcast, persAcc, ih, Bool.and_assoc]
    | activity t2 s => simp [appendThenBroadcast, persAcc, ih]
    | engineSend i g c ok => simp [appendThenBroadcast, persAcc, ih]
    | engineReset i g => simp [appendThenBroadcast, persAcc, ih]
    | startListen => simp [appendThenBroadcast, persAcc, ih]
    | engineClose i g => simp [appendThenBroadcast, persAcc, ih]
    | storeArchive n => simp [appendThenBroadcast, persAcc, ih]
    | storeDelete n => simp [appendThenBroadcast, persAcc, ih]

theorem persAcc_delivers (acc : List String × List String) (msg : OutgoingWSMessage)
    (l : List (String × ClientSubscription)) :
    persAcc acc (l.map (fun p => Effect.deliver p.1 msg)) = acc := by
  induction l with
  | nil => rfl
  | cons p t ih => simp [persAcc, ih]

theorem atb_delivers_user (acc : List String × List String) (c sn src : String)
    (l : List (String × ClientSubscription)) (h : c ∈ acc.1) :
    appendThenBroadcast acc
      (l.map (fun p => Effect.deliver p.1 (.user_message c sn src))) = true := by
  induction l with
  | nil => rfl
  | cons p t ih => simp [appendThenBroadcast, h, ih]

theorem atb_delivers_assistant (acc : List String × List String) (c sn : String)
    (l : List (String × ClientSubscription)) (h : c ∈ acc.2) :
    appendThenBroadcast acc
      (l.map (fun p => Effect.deliver p.1 (.assistant_message c sn))) = true := by
  induction l with
  | nil => rfl
  | cons p t ih => simp [appendThenBroadcast, h, ih]

theorem atb_delivers_error (acc : List String × List String) (e : String)
    (l : List (String × ClientSubscription)) :
    appendThenBroadcast acc (l.map (fun p => Effect.deliver p.1 (.error e))) = true := by
  induction l with
  | nil => rfl
  | cons p t ih => simp [appendThenBroadcast, ih]

theorem atb_delivers_tool (acc : List String × List String) (tn ti inp sn : String)
    (l : List (String × ClientSubscription)) :
    appendThenBroadcast acc
      (l.map (fun p => Effect.deliver p.1 (.tool_use tn ti inp sn))) = true := by
  induction l with
  | nil => rfl
  | cons p t ih => simp [appendThenBroadcast, ih]

theorem atb_delivers_result (acc : List String × List String) (ok : Bool) (sn : String)
    (cost dur : Option Nat) (l : List (String × ClientSubscription)) :
    appendThenBroadcast acc
      (l.map (fun p => Effect.deliver p.1 (.result ok sn cost dur))) = true := by
  induction l with
  | nil => rfl
  | cons p t ih => simp [appendThenBroadcast, ih]

theorem atb_storeAndBroadcast (cb : CbEnv) (db : Db)
    (ms : ManagedSession) (content : String) (acc : List String × List String) :
    appendThenBroadcast acc (ms.storeAndBroadcastAssistant cb db content).2.2 = true ∧
    persAcc acc (ms.storeAndBroadcastAssistant cb db content).2.2 =
      (acc.1, content :: acc.2) := by
  unfold ManagedSession.storeAndBroadcastAssistant
  simp only [ManagedSession.broadcast, broadcastList_snd, messageRepo.create]
  constructor
  · show appendThenBroadcast acc (Effect.persist _ :: _) = true
    simp only [appendThenBroadcast]
    exact atb_delivers_assistant (acc.1, content :: acc.2) content ms.sessionName
      ms.subscribers (List.mem_cons_self content acc.2)
  · show persAcc acc (Effect.persist _ :: _) = _
    simp only [persAcc]
    exact persAcc_delivers (acc.1, content :: acc.2) _ ms.subscribers

theorem atb_handleBlocks (cb : CbEnv) (blocks : List ContentBlock) :
    ∀ (db : Db) (ms : ManagedSession) (acc : List String × List String),
    appendThenBroadcast acc (ManagedSession.handleBlocks cb blocks db ms).2.2 = true := by
  induction blocks with
  | nil => intro db ms acc; rfl
  | cons b rest ih =>
    intro db ms acc
    cases b with
    | text t =>
      rw [ManagedSession.handleBlocks]
      simp only
      rw [appendThenBroadcast_append]
      rw [(atb_storeAndBroadcast cb db ms t acc).1,
          (atb_storeAndBroadcast cb db ms t acc).2,
          ih _ _ _]
      rfl
    | tool_use name id input =>
      rw [ManagedSession.handleBlocks]
      simp only [ManagedSession.broadcast, broadcastList_snd]
      rw [List.append_assoc, appendThenBroadcast_append]
      rw [atb_delivers_tool acc name id input ms.sessionName ms.subscribers,
          persAcc_delivers, Bool.true_and]
      show appendThenBroadcast acc (Effect.activity _ _ :: _) = true
      simp only [appendThenBroadcast]
      exact ih _ _ _
    | other =>
      rw [ManagedSession.handleBlocks]
      exact ih _ _ _

theorem atb_handleSDK (cb : CbEnv) (db : Db) (ms : ManagedSession)
    (m : SDKMessage) (acc : List String × List String) :
    appendThenBroadcast acc (ms.handleSDKMessage cb db m).2.2 = true := by
  cases m with
  | assistantStr content =>
    exact (atb_storeAndBroadcast cb db ms content acc).1
  | assistantBlocks blocks =>
    exact atb_handleBlocks cb blocks db ms acc
  | result subtype cost duration =>
    rw [ManagedSession.handleSDKMessage]
    simp only [ManagedSession.broadcast, broadcastList_snd]
    exact atb_delivers_result acc _ ms.sessionName cost duration ms.subscribers
  | other => rfl

theorem atb_listenLoop (cb : CbEnv) (stream : List SDKMessage) :
    ∀ (db : Db) (ms : ManagedSession) (acc : List String × List String),
    appendThenBroadcast acc (ManagedSession.listenLoop cb stream db ms).2.2 = true := by
  induction stream with
  | nil => intro db ms acc; rfl
  | cons m rest ih =>
    intro db ms acc
    rw [ManagedSession.listenLoop]
    simp only
    rw [appendThenBroadcast_append, atb_handleSDK cb db ms m acc, ih _ _ _]
    rfl

theorem atb_startListening (cb : CbEnv) (stream : List SDKMessage)
    (streamErr : Option String) (db : Db) (ms : ManagedSession)
    (acc : List String × List String) :
    appendThenBroadcast acc (ms.startListening cb stream streamErr db).2.2 = true := by
  rw [ManagedSession.startListening]
  by_cases hl : ms.isListening = true
  · rw [if_pos hl]; rfl
  · simp only [hl, Bool.false_eq_true, if_false]
    cases streamErr with
    | none => simp only; exact atb_listenLoop cb stream _ _ acc
    | some e =>
      simp only [ManagedSession.broadcastError, ManagedSession.broadcast, broadcastList_snd]
      rw [List.append_assoc, appendThenBroadcast_append]
      rw [atb_listenLoop cb stream _ _ acc, Bool.true_and]
      rw [appendThenBroadcast_append]
      rw [atb_delivers_error _ e _, persAcc_delivers, Bool.true_and]
      rfl

theorem atb_sendMessage (env : EngineEnv) (cb : CbEnv) (db : Db)
    (ms : ManagedSession) (content source : String) (acc : List String × List String) :
    appendThenBroadcast acc (ms.sendMessage env cb db content source).2.2 = true := by
  rw [ManagedSession.sendMessage]
  simp only [ManagedSession.broadcast, ManagedSession.broadcastError,
    broadcastList_snd, messageRepo.create, ManagedSession.resetAgentSession]
  by_cases h1 : env.sendThrows ms.instanceId ms.engineGen content = true <;>
  by_cases h2 : env.sendThrows ms.instanceId (ms.engineGen + 1) content = true <;>
  by_cases h3 : ms.isListening = true <;>
  · simp only [h1, h2, h3, if_true, if_false, Bool.false_eq_true, Bool.true_eq_false,
      List.append_assoc, appendThenBroadcast, persAcc, List.append_eq]
    rw [appendThenBroadcast_append,
        atb_delivers_user (content :: acc.1, acc.2) content ms.sessionName source
          ms.subscribers (List.mem_cons_self content acc.1),
        persAcc_delivers, Bool.true_and]
    try (first
      | rfl
      | (simp only [appendThenBroadcast]; exact atb_delivers_error _ _ _))

/-! ### C2: recovery on send -/

def isEngineReset : Effect → Bool
  | .engineReset _ _ => true
  | _ => false

def isEngineSend : Effect → Bool
  | .engineSend _ _ _ _ => true
  | _ => false

def isStartListen : Effect → Bool
  | .startListen => true
  | _ => false

/-- The clients to whom an `error` event was delivered, in order. -/
def errorDeliveryIds : List Effect → List String
  | [] => []
  | .deliver c (.error _) :: rest => c :: errorDeliveryIds rest
  | _ :: rest => errorDeliveryIds rest

theorem errorIds_append (t1 t2 : List Effect) :
    errorDeliveryIds (t1 ++ t2) = errorDeliveryIds t1 ++ errorDeliveryIds t2 := by
  induction t1 with
  | nil => rfl
  | cons e t ih =>
    cases e with
    | deliver c msg => cases msg <;> simp [errorDeliveryIds, ih]
    | persist m => simp [errorDeliveryIds, ih]
    | activity a b => simp [errorDeliveryIds, ih]
    | engineSend i g c ok => simp [errorDeliveryIds, ih]
    | engineReset i g => simp [errorDeliveryIds, ih]
    | startListen => simp [errorDeliveryIds, ih]
    | engineClose i g => simp [errorDeliveryIds, ih]
    | storeArchive n => simp [errorDeliveryIds, ih]
    | storeDelete n => simp [errorDeliveryIds, ih]

theorem countP_reset_deliver (msg : OutgoingWSMessage) (l : List (String × ClientSubscription)) :
    (l.map (fun p => Effect.deliver p.1 msg)).countP isEngineReset = 0 := by
  induction l with
  | nil => rfl
  | cons p t ih => simp [List.countP_cons, isEngineReset, ih]

theorem countP_send_deliver (msg : OutgoingWSMessage) (l : List (String × ClientSubscription)) :
    (l.map (fun p => Effect.deliver p.1 msg)).countP isEngineSend = 0 := by
  induction l with
  | nil => rfl
  | cons p t ih => simp [List.countP_cons, isEngineSend, ih]

theorem countP_listen_deliver (msg : OutgoingWSMessage) (l : List (String × ClientSubscription)) :
    (l.map (fun p => Effect.deliver p.1 msg)).countP isStartListen = 0 := by
  induction l with
  | nil => rfl
  | cons p t ih => simp [List.countP_cons, isStartListen, ih]

theorem errorIds_deliver_user (c sn src : String) (l : List (String × ClientSubscription)) :
    errorDeliveryIds (l.map (fun p => Effect.deliver p.1 (.user_message c sn src))) = [] := by
  induction l with
  | nil => rfl
  | cons p t ih => simp [errorDeliveryIds, ih]

theorem errorIds_deliver_error (e : String) (l : List (String × ClientSubscription)) :
    errorDeliveryIds (l.map (fun p => Effect.deliver p.1 (.error e))) = l.map Prod.fst := by
  induction l with
  | nil => rfl
  | cons p t ih => simp [errorDeliveryIds, ih]

/-- **C2** (confirmed).  For a `ManagedSession.sendMessage` call in which
the engine connection's send throws (`hthrow`): the engine connection is
replaced exactly once (`engineReset` count 1, generation bumped by one)
and send is attempted exactly twice (original plus exactly one retry).
If the retry succeeds, the turn proceeds normally: the listening loop is
started (it was not running — `resetAgentSession` also cleared the
flag) and no error event is delivered.  If the retry also throws,
exactly one `error` event is broadcast — each subscriber present after
the `user_message` fan-out is invoked with it exactly once, in order —
and no listening loop is started.  `sendMessage` is a total function of
the state, so no exception reaches the caller in either case. -/
theorem c2_send_recovery (env : EngineEnv) (cb : CbEnv) (db : Db)
    (ms : ManagedSession) (content source : String)
    (hthrow : env.sendThrows ms.instanceId ms.engineGen content = true) :
    ((ms.sendMessage env cb db content source).2.2.countP isEngineReset = 1) ∧
    ((ms.sendMessage env cb db content source).2.1.engineGen = ms.engineGen + 1) ∧
    ((ms.sendMessage env cb db content source).2.2.countP isEngineSend = 2) ∧
    (env.sendThrows ms.instanceId (ms.engineGen + 1) content = false →
      (ms.sendMessage env cb db content source).2.1.isListening = true ∧
      (ms.sendMessage env cb db content source).2.2.countP isStartListen = 1 ∧
      errorDeliveryIds (ms.sendMessage env cb db content source).2.2 = []) ∧
    (env.sendThrows ms.instanceId (ms.engineGen + 1) content = true →
      (ms.sendMessage env cb db content source).2.1.isListening = false ∧
      (ms.sendMessage env cb db content source).2.2.countP isStartListen = 0 ∧
      errorDeliveryIds (ms.sendMessage env cb db content source).2.2 =
        (ms.subscribers.filter (fun p => cb.ok p.2.cb
            (.user_message content ms.sessionName source))).map Prod.fst) := by
  rw [ManagedSession.sendMessage]
  simp only [ManagedSession.broadcast, ManagedSession.broadcastError,
    broadcastList_snd, broadcastList_fst, messageRepo.create,
    ManagedSession.resetAgentSession, hthrow, if_true]
  by_cases h2 : env.sendThrows ms.instanceId (ms.engineGen + 1) content = true
  · refine ⟨?_, ?_, ?_, ?_, ?_⟩
    · simp only [h2, if_true, List.countP_append, List.countP_cons, List.append_assoc,
        isEngineReset, countP_reset_deliver]
      try rfl
      try omega
    · simp only [h2, if_true]
    · simp only [h2, if_true, List.countP_append, List.countP_cons, List.append_assoc,
        isEngineSend, countP_send_deliver]
      try rfl
      try omega
    · intro hretry
      rw [h2] at hretry
      exact absurd hretry (by simp)
    · intro _
      refine ⟨?_, ?_, ?_⟩
      · simp only [h2, if_true]
      · simp only [h2, if_true, List.countP_append, List.countP_cons, List.append_assoc,
          isStartListen, countP_listen_deliver]
        try rfl
        try omega
      · simp only [h2, if_true, List.append_assoc, errorIds_append, errorDeliveryIds,
          errorIds_deliver_user, errorIds_deliver_error]
        try rfl
        try exact errorIds_deliver_error _ _
        try simp [errorIds_deliver_error]
  · refine ⟨?_, ?_, ?_, ?_, ?_⟩
    · simp only [h2, if_false, Bool.false_eq_true, List.countP_append, List.countP_cons,
        List.append_assoc, isEngineReset, countP_reset_deliver]
      try rfl
      try omega
    · simp only [h2, if_false, Bool.false_eq_true]
    · simp only [h2, if_false, Bool.false_eq_true, List.countP_append, List.countP_cons,
        List.append_assoc, isEngineSend, countP_send_deliver]
      try rfl
      try omega
    · intro _
      refine ⟨?_, ?_, ?_⟩
      · simp only [h2, if_false, Bool.false_eq_true]
      · simp only [h2, if_false, Bool.false_eq_true, List.countP_append, List.countP_cons,
          List.append_assoc, isStartListen, countP_listen_deliver]
        try rfl
        try omega
      · simp only [h2, if_false, Bool.false_eq_true, List.append_assoc, errorIds_append,
          errorDeliveryIds, errorIds_deliver_user, errorIds_deliver_error]
        try rfl
        try exact errorIds_deliver_error _ _
        try simp [errorIds_deliver_error]
    · intro hretry
      exact absurd hretry h2

/-- Engine oracle for the C2 witness: every generation-0 connection's
send throws, later generations succeed. -/
def envW : EngineEnv :=
  { sendThrows := fun _ g _ => g == 0, errMsg := fun _ _ _ => "boom" }

theorem c2_send_recovery_witness :
    ((msW.sendMessage envW cbW dbEmpty "hi" "web").2.2.countP isEngineReset = 1) ∧
    ((msW.sendMessage envW cbW dbEmpty "hi" "web").2.1.engineGen = 1) ∧
    ((msW.sendMessage envW cbW dbEmpty "hi" "web").2.2.countP isEngineSend = 2) ∧
    ((msW.sendMessage envW cbW dbEmpty "hi" "web").2.1.isListening = true) ∧
    ((msW.sendMessage envW cbW dbEmpty "hi" "web").2.2.countP isStartListen = 1) ∧
    errorDeliveryIds (msW.sendMessage envW cbW dbEmpty "hi" "web").2.2 = [] :=
  ⟨(c2_send_recovery envW cbW dbEmpty msW "hi" "web" rfl).1,
   (c2_send_recovery envW cbW dbEmpty msW "hi" "web" rfl).2.1,
   (c2_send_recovery envW cbW dbEmpty msW "hi" "web" rfl).2.2.1,
   ((c2_send_recovery envW cbW dbEmpty msW "hi" "web" rfl).2.2.2.1 rfl).1,
   ((c2_send_recovery envW cbW dbEmpty msW "hi" "web" rfl).2.2.2.1 rfl).2.1,
   ((c2_send_recovery envW cbW dbEmpty msW "hi" "web" rfl).2.2.2.1 rfl).2.2⟩

/-- **C3** (confirmed).  In `sendMessage`, the user message's
`messageRepo.create` (the `persist` effect, and the row's presence in
the returned store) precedes every `user_message` callback invocation;
in the listening loop, each assistant chunk is persisted by
`storeAndBroadcastAssistant` before its `assistant_message` invocations.
Formally: scanning any trace of `sendMessage` or of the listening loop
(`startListening`, any stream, with or without a terminal stream error),
every `user_message` / `assistant_message` delivery carries a content
already persisted with the matching role strictly earlier in the trace
(`appendThenBroadcast` from empty accumulators).  The last two
conjuncts show the `persist` effects are real appends to the durable
store threaded through the same call. -/
theorem c3_persist_precedes_broadcast (env : EngineEnv) (cb : CbEnv) (db db2 db3 : Db)
    (ms ms2 ms3 : ManagedSession) (content source chunk : String)
    (stream : List SDKMessage) (streamErr : Option String) :
    appendThenBroadcast ([], []) (ms.sendMessage env cb db content source).2.2 = true ∧
    appendThenBroadcast ([], []) (ms2.startListening cb stream streamErr db2).2.2 = true ∧
    (ms.sendMessage env cb db content source).1.messages =
      db.messages ++ [{ id := db.nextId, session_id := ms.sessionId, role := .user,
                        content := content, timestamp := db.clock,
                        source := some source, metadata := none }] ∧
    (ms3.storeAndBroadcastAssistant cb db3 chunk).1.messages =
      db3.messages ++ [{ id := db3.nextId, session_id := ms3.sessionId, role := .assistant,
                         content := chunk, timestamp := db3.clock,
                         source := some "agent", metadata := none }] := by
  refine ⟨atb_sendMessage env cb db ms content source ([], []),
          atb_startListening cb stream streamErr db2 ms2 ([], []), ?_, rfl⟩
  rw [ManagedSession.sendMessage]
  simp only [messageRepo.create, sessionRepo.touch]
  by_cases h1 : env.sendThrows ms.instanceId ms.engineGen content = true <;>
  by_cases h2 : env.sendThrows ms.instanceId (ms.engineGen + 1) content = true <;>
  by_cases h3 : ms.isListening = true <;>
  simp [h1, h2, h3, ManagedSession.resetAgentSession, ManagedSession.broadcast,
    ManagedSession.broadcastError]

/-! ### C8: archive/delete vs. in-memory registry state -/

/-- **C8** (corrected): counterexample to the claim as stated.  Subscribe
client "c" to session "s", then `deleteSession "s"`.  The live session
is closed and removed from the name-to-session map, and the store row is
deleted — but the client-to-session map still references "s"
(`lookupA clientSessions "c" = some "s"`), contradicting the claim that
*no* registry state still references the name.  Consequently a later
registry `sendMessage` for "c" fails with the session-not-found error,
not the not-subscribed condition the claim requires. -/
theorem c8_stale_client_map_counterexample :
    lookupA (((mgr0.subscribeClient "c" "s" .web 0).2.deleteSession "s").2.1.sessions) "s"
      = none ∧
    ((mgr0.subscribeClient "c" "s" .web 0).2.deleteSession "s").1 = true ∧
    lookupA (((mgr0.subscribeClient "c" "s" .web 0).2.deleteSession "s").2.1.clientSessions) "c"
      = some "s" ∧
    (SessionManager.sendMessage envW cbW
        ((mgr0.subscribeClient "c" "s" .web 0).2.deleteSession "s").2.1
        "c" "hello" "web").1 =
      .error "Session s not found" := by
  refine ⟨rfl, rfl, rfl, rfl⟩

/-- **C8** (corrected, amended claim).  After `archiveSession name` /
`deleteSession name`: any live Managed Session for the name was closed
and removed from the name-to-session map *before* the store operation
was delegated (the trace places `engineClose` ahead of
`storeArchive`/`storeDelete`, and the post-state has no live entry for
the name) — but the client-to-session map is left untouched, so a
client that was subscribed to the removed session keeps a stale
mapping, and a later registry `sendMessage` for that client throws the
"Session ... not found" error rather than reporting the not-subscribed
condition. -/
theorem c8_amended (env : EngineEnv) (cb : CbEnv) (m : SessionManager)
    (name clientId content source : String)
    (hnd : (m.sessions.map Prod.fst).Nodup) :
    lookupA (m.archiveSession name).2.1.sessions name = none ∧
    lookupA (m.deleteSession name).2.1.sessions name = none ∧
    (m.archiveSession name).2.2 =
      (match lookupA m.sessions name with
       | some s => [Effect.engineClose s.instanceId s.engineGen]
       | none => []) ++ [Effect.storeArchive name] ∧
    (m.deleteSession name).2.2 =
      (match lookupA m.sessions name with
       | some s => [Effect.engineClose s.instanceId s.engineGen]
       | none => []) ++ [Effect.storeDelete name] ∧
    (m.archiveSession name).2.1.clientSessions = m.clientSessions ∧
    (m.deleteSession name).2.1.clientSessions = m.clientSessions ∧
    (lookupA m.clientSessions clientId = some name →
      (SessionManager.sendMessage env cb (m.deleteSession name).2.1
          clientId content source).1 =
        .error ("Session " ++ name ++ " not found")) := by
  cases hl : lookupA m.sessions name with
  | some s =>
    refine ⟨?_, ?_, ?_, ?_, ?_, ?_, ?_⟩
    · simp [SessionManager.archiveSession, hl, lookupA_eraseA_self name hnd]
    · simp [SessionManager.deleteSession, hl, lookupA_eraseA_self name hnd]
    · simp [SessionManager.archiveSession, hl]
    · simp [SessionManager.deleteSession, hl]
    · simp [SessionManager.archiveSession, hl]
    · simp [SessionManager.deleteSession, hl]
    · intro hcs
      simp [SessionManager.deleteSession, SessionManager.sendMessage, hl, hcs,
        lookupA_eraseA_self name hnd]
  | none =>
    refine ⟨?_, ?_, ?_, ?_, ?_, ?_, ?_⟩
    · simp [SessionManager.archiveSession, hl]
    · simp [SessionManager.deleteSession, hl]
    · simp [SessionManager.archiveSession, hl]
    · simp [SessionManager.deleteSession, hl]
    · simp [SessionManager.archiveSession, hl]
    · simp [SessionManager.deleteSession, hl]
    · intro hcs
      simp [SessionManager.deleteSession, SessionManager.sendMessage, hl, hcs]

theorem c8_amended_witness :
    lookupA ((mgr0.subscribeClient "c" "s" .web 0).2.archiveSession "s").2.1.sessions "s"
      = none ∧
    (SessionManager.sendMessage envW cbW
        ((mgr0.subscribeClient "c" "s" .web 0).2.deleteSession "s").2.1
        "c" "hello" "web").1 =
      .error ("Session " ++ "s" ++ " not found") :=
  ⟨(c8_amended envW cbW (mgr0.subscribeClient "c" "s" .web 0).2
      "s" "c" "hello" "web" (by decide)).1,
   (c8_amended envW cbW (mgr0.subscribeClient "c" "s" .web 0).2
      "s" "c" "hello" "web" (by decide)).2.2.2.2.2.2 rfl⟩

/-! ### Registry well-formedness (every state a JS run can reach) -/

/-- The two registry maps have unique keys (JS `Map` semantics) and so
does every live session's subscriber map. -/
def WF (m : SessionManager) : Prop :=
  (m.sessions.map Prod.fst).Nodup ∧ (m.clientSessions.map Prod.fst).Nodup ∧
  ∀ p ∈ m.sessions, (p.2.subscribers.map Prod.fst).Nodup

instance : DecidablePred WF := fun m => by
  unfold WF
  infer_instance

theorem mem_updateA {α β : Type} [DecidableEq α] {l : List (α × β)} {k : α} {v : β}
    {p : α × β} (h : p ∈ updateA l k v) : p ∈ l ∨ p = (k, v) := by
  rcases List.mem_map.mp h with ⟨q, hq, hfq⟩
  by_cases hqk : q.1 = k
  · right; rw [← hfq]; simp [hqk]
  · left; rw [← hfq]; simp [hqk]; exact hq

theorem countKeyA_setA_self {α β : Type} [DecidableEq α] {l : List (α × β)} (k : α) (v : β)
    (hnd : (l.map Prod.fst).Nodup) : countKeyA (setA l k v) k = 1 :=
  countKeyA_of_nodup (nodup_keys_setA k v hnd) (by rw [lookupA_setA]; simp)

theorem countKeyA_eraseA_self {α β : Type} [DecidableEq α] {l : List (α × β)} (k : α)
    (hnd : (l.map Prod.fst).Nodup) : countKeyA (eraseA l k) k = 0 := by
  induction l with
  | nil => rfl
  | cons p t ih =>
    rw [List.map_cons, List.nodup_cons] at hnd
    rw [eraseA]
    by_cases hp : p.1 = k
    · rw [if_pos hp, countKeyA, List.countP_eq_zero]
      intro q hq
      simp only [decide_eq_true_eq]
      intro hqk
      exact (hp ▸ hnd.1) (List.mem_map.mpr ⟨q, hq, hqk⟩)
    · rw [if_neg hp, countKeyA, List.countP_cons]
      have := ih hnd.2
      rw [countKeyA] at this
      simp [hp, this]

theorem lookupA_append_one_ne {α β : Type} [DecidableEq α] {l : List (α × β)} {n o : α}
    (s : β) (h : o ≠ n) : lookupA (l ++ [(n, s)]) o = lookupA l o := by
  cases hl : lookupA l o with
  | some v => exact lookupA_append_left hl
  | none =>
    rw [lookupA_append_right _ hl, lookupA_cons,
      if_neg (fun hh : n = o => h hh.symm)]
    rfl

theorem wf_unsubscribeClient (m : SessionManager) (c : String) (hwf : WF m) :
    WF (m.unsubscribeClient c) := by
  cases hcs : lookupA m.clientSessions c with
  | none => simpa [SessionManager.unsubscribeClient, hcs] using hwf
  | some name =>
    cases hls : lookupA m.sessions name with
    | none =>
      simp only [SessionManager.unsubscribeClient, hcs, hls]
      exact ⟨hwf.1, nodup_keys_eraseA c hwf.2.1, hwf.2.2⟩
    | some s =>
      simp only [SessionManager.unsubscribeClient, hcs, hls]
      refine ⟨?_, nodup_keys_eraseA c hwf.2.1, ?_⟩
      · exact nodup_keys_updateA name _ hwf.1
      · intro p hp
        rcases mem_updateA hp with hold | hnew
        · exact hwf.2.2 p hold
        · rw [hnew]
          exact nodup_keys_eraseA c (hwf.2.2 (name, s) (lookupA_mem hls))

/-- `getOrCreateSession` on a slug-stable, non-empty name: the call
succeeds, the returned session is live under the raw name afterwards,
well-formedness is preserved, and the client map is untouched. -/
theorem getOrCreateSession_spec (m : SessionManager) (n createdBy : String)
    (hwf : WF m) (hslug : slugify n = n) (hne : n ≠ "") :
    (∃ s, (m.getOrCreateSession n createdBy).1 = .ok s ∧
      lookupA (m.getOrCreateSession n createdBy).2.sessions n = some s) ∧
    WF (m.getOrCreateSession n createdBy).2 ∧
    (m.getOrCreateSession n createdBy).2.clientSessions = m.clientSessions := by
  cases hls : lookupA m.sessions n with
  | some s =>
    simp only [SessionManager.getOrCreateSession, hls]
    exact ⟨⟨s, rfl, rfl⟩, hwf, trivial⟩
  | none =>
    have hkeys : n ∉ m.sessions.map Prod.fst := fun hmem =>
      absurd (lookupA_isSome_of_mem_keys hmem) (by simp [hls])
    have hnodupapp : ∀ s2 : ManagedSession,
        ((m.sessions ++ [(n, s2)]).map Prod.fst).Nodup := by
      intro s2
      rw [List.map_append]
      exact List.nodup_append.mpr ⟨hwf.1, List.nodup_singleton n, by
        intro a ha hb
        simp at hb
        exact hkeys (hb ▸ ha)⟩
    have hinner : ∀ s2 : ManagedSession, (s2.subscribers.map Prod.fst).Nodup →
        ∀ p ∈ m.sessions ++ [(n, s2)], ((p.2.subscribers.map Prod.fst)).Nodup := by
      intro s2 hs2 p hp
      rcases List.mem_append.mp hp with hold | hnew
      · exact hwf.2.2 p hold
      · simp at hnew
        rw [hnew]
        exact hs2
    have hlook : ∀ s2 : ManagedSession,
        lookupA (m.sessions ++ [(n, s2)]) n = some s2 := by
      intro s2
      rw [lookupA_append_right _ hls, lookupA_cons]
      simp
    cases hgb : sessionRepo.getByName m.db n with
    | some row =>
      simp only [SessionManager.getOrCreateSession, hls,
        sessionRepo.getOrCreateByName, hgb]
      exact ⟨⟨_, rfl, hlook _⟩,
        ⟨hnodupapp _, hwf.2.1, hinner _ List.nodup_nil⟩, trivial⟩
    | none =>
      have hnocoll : (m.db.sessions.any (fun s => s.name == n)) = false := by
        rw [List.any_eq_false]
        intro row hrow
        simp only [beq_iff_eq]
        intro hcontra
        rw [sessionRepo.getByName, List.find?_eq_none] at hgb
        exact absurd (by simp [hcontra]) (hgb row hrow)
      simp only [SessionManager.getOrCreateSession, hls,
        sessionRepo.getOrCreateByName, hgb, sessionRepo.create, ne_eq, hne,
        not_false_eq_true, if_true, hslug, hnocoll, Bool.false_eq_true, if_false]
      exact ⟨⟨_, rfl, hlook _⟩,
        ⟨hnodupapp _, hwf.2.1, hinner _ List.nodup_nil⟩, trivial⟩

/-- One `subscribeClient` call on a slug-stable name: it succeeds,
preserves well-formedness, points the client map at the target, and the
target session holds exactly one subscription entry for the client. -/
theorem subscribeClient_spec (m : SessionManager) (c n : String) (ct : ClientType)
    (k : Nat) (hwf : WF m) (hslug : slugify n = n) (hne : n ≠ "") :
    (∃ s, (m.subscribeClient c n ct k).1 = .ok s) ∧
    WF (m.subscribeClient c n ct k).2 ∧
    lookupA (m.subscribeClient c n ct k).2.clientSessions c = some n ∧
    (∃ t, lookupA (m.subscribeClient c n ct k).2.sessions n = some t ∧
      countKeyA t.subscribers c = 1) := by
  have hwf1 : WF (m.unsubscribeClient c) := wf_unsubscribeClient m c hwf
  obtain ⟨⟨s, hok, hlook⟩, hwf2, hcs⟩ :=
    getOrCreateSession_spec (m.unsubscribeClient c) n ct.label hwf1 hslug hne
  have hsubnd : (s.subscribers.map Prod.fst).Nodup :=
    hwf2.2.2 (n, s) (lookupA_mem hlook)
  simp only [SessionManager.subscribeClient, hok]
  refine ⟨⟨_, rfl⟩, ⟨?_, ?_, ?_⟩, ?_, ?_⟩
  · exact nodup_keys_updateA n _ hwf2.1
  · exact nodup_keys_setA c n hwf2.2.1
  · intro p hp
    rcases mem_updateA hp with hold | hnew
    · exact hwf2.2.2 p hold
    · rw [hnew]
      exact nodup_keys_setA c _ hsubnd
  · rw [lookupA_setA]; simp
  · refine ⟨s.subscribe c ct k, ?_, ?_⟩
    · rw [lookupA_updateA]
      simp [hlook]
    · exact countKeyA_setA_self c _ hsubnd

theorem getOrCreateSession_sessions_other (m : SessionManager) (n c o : String)
    (ho : o ≠ n) :
    lookupA (m.getOrCreateSession n c).2.sessions o = lookupA m.sessions o := by
  cases hls : lookupA m.sessions n with
  | some s => simp [SessionManager.getOrCreateSession, hls]
  | none =>
    cases hgb : sessionRepo.getByName m.db n with
    | some row =>
      simp only [SessionManager.getOrCreateSession, hls,
        sessionRepo.getOrCreateByName, hgb]
      exact lookupA_append_one_ne _ ho
    | none =>
      cases hcoll : m.db.sessions.any (fun s =>
          s.name == (if n ≠ "" then slugify n else m.db.genName)) with
      | true =>
        simp only [SessionManager.getOrCreateSession, hls,
          sessionRepo.getOrCreateByName, hgb, sessionRepo.create, hcoll,
          eq_self_iff_true, if_true]
      | false =>
        simp only [SessionManager.getOrCreateSession, hls,
          sessionRepo.getOrCreateByName, hgb, sessionRepo.create, hcoll,
          Bool.false_eq_true, if_false]
        exact lookupA_append_one_ne _ ho

/-- A `subscribeClient` call leaves the live session under any *other*
name exactly as `unsubscribeClient` left it (whether or not the
resolve/create step succeeded). -/
theorem subscribeClient_sessions_other (m : SessionManager) (c n : String)
    (ct : ClientType) (k : Nat) (o : String) (ho : o ≠ n) :
    lookupA (m.subscribeClient c n ct k).2.sessions o =
      lookupA (m.unsubscribeClient c).sessions o := by
  cases hok : ((m.unsubscribeClient c).getOrCreateSession n ct.label).1 with
  | error e =>
    simp only [SessionManager.subscribeClient, hok]
    exact getOrCreateSession_sessions_other _ n ct.label o ho
  | ok s =>
    simp only [SessionManager.subscribeClient, hok]
    rw [lookupA_updateA, if_neg ho]
    exact getOrCreateSession_sessions_other _ n ct.label o ho

/-- `unsubscribeClient` removes the client's subscription from the
session the client-to-session map currently records. -/
theorem unsubscribeClient_removes_prev (m : SessionManager) (c o : String)
    (hwf : WF m) (hprev : lookupA m.clientSessions c = some o) :
    ∀ t, lookupA (m.unsubscribeClient c).sessions o = some t →
      countKeyA t.subscribers c = 0 := by
  intro t ht
  cases hls : lookupA m.sessions o with
  | none =>
    simp only [SessionManager.unsubscribeClient, hprev, hls] at ht
    exact absurd ht (by simp)
  | some s =>
    simp only [SessionManager.unsubscribeClient, hprev, hls] at ht
    rw [lookupA_updateA, if_pos rfl, hls, Option.map_some'] at ht
    have h2 := Option.some.inj ht
    rw [← h2]
    show countKeyA (eraseA s.subscribers c) c = 0
    exact countKeyA_eraseA_self c (hwf.2.2 (o, s) (lookupA_mem hls))

theorem subscribeClient_removes_prev (m : SessionManager) (c n : String)
    (ct : ClientType) (k : Nat) (o : String) (hwf : WF m)
    (hprev : lookupA m.clientSessions c = some o) (ho : o ≠ n) :
    ∀ t, lookupA (m.subscribeClient c n ct k).2.sessions o = some t →
      countKeyA t.subscribers c = 0 := by
  intro t ht
  rw [subscribeClient_sessions_other m c n ct k o ho] at ht
  exact unsubscribeClient_removes_prev m c o hwf hprev t ht

/-- The poisoned but reachable state behind the C6 counterexample:
client "c" subscribes to "My Chat" (the store persists the row under
the slug "my-chat" while the registry keys the live session by the raw
name), unsubscribes, and a `cleanup` sweep evicts the idle session.
Memory is now cold while the store still holds the slug row. -/
def mgrPoisoned : SessionManager :=
  ((((mgr0.subscribeClient "c" "My Chat" .web 0).2).unsubscribeClient "c").cleanup).1

/-- **C6** (corrected): counterexample to the claim as stated.  The
claim covers every session name, but from the reachable state
`mgrPoisoned` a `subscribeClient "c" "My Chat"` — twice in a row —
throws the C7 unique-constraint error both times (the raw-name store
lookup misses while the slugified INSERT collides), so afterwards there
is *no* subscription entry for the client under the requested name and
the client-to-session map does not point at the session at all,
contradicting "leaves exactly one subscription entry ... and the
client-to-session map points at that session both times". -/
theorem c6_resubscription_counterexample :
    (mgrPoisoned.subscribeClient "c" "My Chat" .web 0).1 =
      .error "UNIQUE constraint failed: sessions.name" ∧
    ((mgrPoisoned.subscribeClient "c" "My Chat" .web 0).2.subscribeClient
        "c" "My Chat" .web 0).1 =
      .error "UNIQUE constraint failed: sessions.name" ∧
    lookupA ((mgrPoisoned.subscribeClient "c" "My Chat" .web 0).2.subscribeClient
        "c" "My Chat" .web 0).2.clientSessions "c" = none ∧
    lookupA ((mgrPoisoned.subscribeClient "c" "My Chat" .web 0).2.subscribeClient
        "c" "My Chat" .web 0).2.sessions "My Chat" = none := by
  refine ⟨rfl, rfl, rfl, rfl⟩

/-- **C6** (corrected, amended claim).  For session names the Transcript
Store keeps verbatim (`slugify n = n`, `n ≠ ""` — for any other name
the raw-lookup/slugified-insert mismatch of C7 can make the store
resolution throw, as the counterexample shows): `subscribeClient` first
removes the client's subscription from whatever session the
client-to-session map currently records (first conjunct: a previously
recorded session `o ≠ n` retains no entry for the client) and then
points the map at the target; calling `subscribeClient` twice in a row
with the same clientId and session name succeeds both times, leaves
exactly one subscription entry for that client in that session's
subscriber map, and the client-to-session map points at that session
both times. -/
theorem c6_idempotent_resubscription (m : SessionManager) (clientId n : String)
    (ct : ClientType) (cbId : Nat)
    (hwf : WF m) (hslug : slugify n = n) (hne : n ≠ "") :
    (∀ o, lookupA m.clientSessions clientId = some o → o ≠ n →
      ∀ t, lookupA (m.subscribeClient clientId n ct cbId).2.sessions o = some t →
        countKeyA t.subscribers clientId = 0) ∧
    (∃ s, (m.subscribeClient clientId n ct cbId).1 = .ok s) ∧
    lookupA (m.subscribeClient clientId n ct cbId).2.clientSessions clientId = some n ∧
    (∃ t, lookupA (m.subscribeClient clientId n ct cbId).2.sessions n = some t ∧
      countKeyA t.subscribers clientId = 1) ∧
    (∃ s, ((m.subscribeClient clientId n ct cbId).2.subscribeClient
        clientId n ct cbId).1 = .ok s) ∧
    lookupA ((m.subscribeClient clientId n ct cbId).2.subscribeClient
        clientId n ct cbId).2.clientSessions clientId = some n ∧
    (∃ t, lookupA ((m.subscribeClient clientId n ct cbId).2.subscribeClient
        clientId n ct cbId).2.sessions n = some t ∧
      countKeyA t.subscribers clientId = 1) := by
  obtain ⟨hok1, hwf1, hcs1, hsub1⟩ :=
    subscribeClient_spec m clientId n ct cbId hwf hslug hne
  obtain ⟨hok2, hwf2, hcs2, hsub2⟩ :=
    subscribeClient_spec (m.subscribeClient clientId n ct cbId).2
      clientId n ct cbId hwf1 hslug hne
  exact ⟨fun o hprev ho t ht =>
      subscribeClient_removes_prev m clientId n ct cbId o hwf hprev ho t ht,
    hok1, hcs1, hsub1, hok2, hcs2, hsub2⟩

/-- Pre-state for the C6 witness: client "c" is subscribed to session
"old" (live with one subscription entry and a matching store row)
before it re-subscribes to "s". -/
def subOld : ClientSubscription :=
  { clientId := "c", clientType := .web, sessionName := "old", cb := 0 }

def msOld : ManagedSession :=
  { instanceId := 0, sessionId := 0, sessionName := "old",
    agentSession := AgentSession.init, engineGen := 0,
    subscribers := [("c", subOld)], isListening := false }

def dbOld : Db :=
  { sessions := [{ id := 0, name := "old", title := none, created_at := 0,
                   updated_at := 0, created_by := "web", archived := false }],
    messages := [], nextId := 1, clock := 1, genName := "bright-owl-1" }

def mgrPrev : SessionManager :=
  { sessions := [("old", msOld)], clientSessions := [("c", "old")],
    nextInstanceId := 1, db := dbOld }

theorem c6_idempotent_resubscription_witness :
    countKeyA (msOld.unsubscribe "c").subscribers "c" = 0 ∧
    lookupA (mgrPrev.subscribeClient "c" "s" .web 0).2.clientSessions "c" = some "s" ∧
    (∃ t, lookupA (mgrPrev.subscribeClient "c" "s" .web 0).2.sessions "s" = some t ∧
      countKeyA t.subscribers "c" = 1) ∧
    (∃ s, ((mgrPrev.subscribeClient "c" "s" .web 0).2.subscribeClient "c" "s" .web 0).1
      = .ok s) ∧
    lookupA ((mgrPrev.subscribeClient "c" "s" .web 0).2.subscribeClient
        "c" "s" .web 0).2.clientSessions "c" = some "s" ∧
    (∃ t, lookupA ((mgrPrev.subscribeClient "c" "s" .web 0).2.subscribeClient
        "c" "s" .web 0).2.sessions "s" = some t ∧
      countKeyA t.subscribers "c" = 1) :=
  ⟨(c6_idempotent_resubscription mgrPrev "c" "s" .web 0
      (by decide) (by decide) (by decide)).1 "old" rfl (by decide)
      (msOld.unsubscribe "c") rfl,
   (c6_idempotent_resubscription mgrPrev "c" "s" .web 0
      (by decide) (by decide) (by decide)).2.2.1,
   (c6_idempotent_resubscription mgrPrev "c" "s" .web 0
      (by decide) (by decide) (by decide)).2.2.2.1,
   (c6_idempotent_resubscription mgrPrev "c" "s" .web 0
      (by decide) (by decide) (by decide)).2.2.2.2.1,
   (c6_idempotent_resubscription mgrPrev "c" "s" .web 0
      (by decide) (by decide) (by decide)).2.2.2.2.2.1,
   (c6_idempotent_resubscription mgrPrev "c" "s" .web 0
      (by decide) (by decide) (by decide)).2.2.2.2.2.2⟩

/-! ### C1: at most one live instance per name -/

/-- The object identity of the live session registered under `name`. -/
def liveInstance (m : SessionManager) (name : String) : Option Nat :=
  (lookupA m.sessions name).map ManagedSession.instanceId

theorem sendMessage_instanceId (env : EngineEnv) (cb : CbEnv) (db : Db)
    (ms : ManagedSession) (content source : String) :
    ((ms.sendMessage env cb db content source).2.1).instanceId = ms.instanceId := by
  rw [ManagedSession.sendMessage]
  by_cases h1 : env.sendThrows ms.instanceId ms.engineGen content = true <;>
  by_cases h2 : env.sendThrows ms.instanceId (ms.engineGen + 1) content = true <;>
  by_cases h3 : ms.isListening = true <;>
  simp [h1, h2, h3, ManagedSession.broadcast, ManagedSession.broadcastError,
    ManagedSession.resetAgentSession, messageRepo.create]

theorem sendMessage_subscribers_sublist (env : EngineEnv) (cb : CbEnv) (db : Db)
    (ms : ManagedSession) (content source : String) :
    ((ms.sendMessage env cb db content source).2.1).subscribers.Sublist ms.subscribers := by
  rw [ManagedSession.sendMessage]
  by_cases h1 : env.sendThrows ms.instanceId ms.engineGen content = true <;>
  by_cases h2 : env.sendThrows ms.instanceId (ms.engineGen + 1) content = true <;>
  by_cases h3 : ms.isListening = true <;>
  · simp [h1, h2, h3, ManagedSession.broadcast, ManagedSession.broadcastError,
      ManagedSession.resetAgentSession, messageRepo.create, broadcastList_fst]
    try (first
      | exact List.filter_sublist _
      | exact (List.filter_sublist _).trans (List.filter_sublist _)
      | exact List.Sublist.refl _)

theorem wf_of_db_change (m : SessionManager) (db' : Db) (hwf : WF m) :
    WF { m with db := db' } := ⟨hwf.1, hwf.2.1, hwf.2.2⟩

theorem wf_getOrCreateSession (m : SessionManager) (n c : String) (hwf : WF m) :
    WF (m.getOrCreateSession n c).2 := by
  cases hls : lookupA m.sessions n with
  | some s => simpa [SessionManager.getOrCreateSession, hls] using hwf
  | none =>
    have hkeys : n ∉ m.sessions.map Prod.fst := fun hmem =>
      absurd (lookupA_isSome_of_mem_keys hmem) (by simp [hls])
    have hnodupapp : ∀ s2 : ManagedSession,
        ((m.sessions ++ [(n, s2)]).map Prod.fst).Nodup := by
      intro s2
      rw [List.map_append]
      exact List.nodup_append.mpr ⟨hwf.1, List.nodup_singleton n, by
        intro a ha hb
        simp at hb
        exact hkeys (hb ▸ ha)⟩
    have hinner : ∀ s2 : ManagedSession, (s2.subscribers.map Prod.fst).Nodup →
        ∀ p ∈ m.sessions ++ [(n, s2)], ((p.2.subscribers.map Prod.fst)).Nodup := by
      intro s2 hs2 p hp
      rcases List.mem_append.mp hp with hold | hnew
      · exact hwf.2.2 p hold
      · simp at hnew
        rw [hnew]
        exact hs2
    cases hgb : sessionRepo.getByName m.db n with
    | some row =>
      simp only [SessionManager.getOrCreateSession, hls,
        sessionRepo.getOrCreateByName, hgb]
      exact ⟨hnodupapp _, hwf.2.1, hinner _ List.nodup_nil⟩
    | none =>
      cases hcoll : m.db.sessions.any (fun s =>
          s.name == (if n ≠ "" then slugify n else m.db.genName)) with
      | true =>
        simp only [SessionManager.getOrCreateSession, hls,
          sessionRepo.getOrCreateByName, hgb, sessionRepo.create, hcoll,
          eq_self_iff_true, if_true]
        exact hwf
      | false =>
        simp only [SessionManager.getOrCreateSession, hls,
          sessionRepo.getOrCreateByName, hgb, sessionRepo.create, hcoll,
          Bool.false_eq_true, if_false]
        exact ⟨hnodupapp _, hwf.2.1, hinner _ List.nodup_nil⟩

theorem getOrCreateSession_ok_lookup (m : SessionManager) (n c : String)
    (s : ManagedSession) (hok : (m.getOrCreateSession n c).1 = .ok s) :
    lookupA (m.getOrCreateSession n c).2.sessions n = some s := by
  cases hls : lookupA m.sessions n with
  | some t =>
    simp only [SessionManager.getOrCreateSession, hls] at hok ⊢
    injection hok with h
    rw [h]
  | none =>
    cases hgb : sessionRepo.getByName m.db n with
    | some row =>
      simp only [SessionManager.getOrCreateSession, hls,
        sessionRepo.getOrCreateByName, hgb] at hok ⊢
      injection hok with h
      rw [← h, lookupA_append_right _ hls, lookupA_cons]
      simp
    | none =>
      cases hcoll : m.db.sessions.any (fun s =>
          s.name == (if n ≠ "" then slugify n else m.db.genName)) with
      | true =>
        simp only [SessionManager.getOrCreateSession, hls,
          sessionRepo.getOrCreateByName, hgb, sessionRepo.create, hcoll,
          eq_self_iff_true, if_true] at hok
        exact absurd hok (by simp)
      | false =>
        simp only [SessionManager.getOrCreateSession, hls,
          sessionRepo.getOrCreateByName, hgb, sessionRepo.create, hcoll,
          Bool.false_eq_true, if_false] at hok ⊢
        injection hok with h
        rw [← h, lookupA_append_right _ hls, lookupA_cons]
        simp

theorem wf_subscribeClient (m : SessionManager) (c n : String) (ct : ClientType)
    (k : Nat) (hwf : WF m) : WF (m.subscribeClient c n ct k).2 := by
  have hwf1 : WF (m.unsubscribeClient c) := wf_unsubscribeClient m c hwf
  have hwf2 : WF ((m.unsubscribeClient c).getOrCreateSession n ct.label).2 :=
    wf_getOrCreateSession _ n ct.label hwf1
  cases hok : ((m.unsubscribeClient c).getOrCreateSession n ct.label).1 with
  | error e =>
    simp only [SessionManager.subscribeClient, hok]
    exact hwf2
  | ok s =>
    have hlook := getOrCreateSession_ok_lookup _ n ct.label s hok
    have hsubnd : (s.subscribers.map Prod.fst).Nodup :=
      hwf2.2.2 (n, s) (lookupA_mem hlook)
    simp only [SessionManager.subscribeClient, hok]
    refine ⟨?_, ?_, ?_⟩
    · exact nodup_keys_updateA n _ hwf2.1
    · exact nodup_keys_setA c n hwf2.2.1
    · intro p hp
      rcases mem_updateA hp with hold | hnew
      · exact hwf2.2.2 p hold
      · rw [hnew]
        exact nodup_keys_setA c _ hsubnd

theorem wf_sendMessageM (env : EngineEnv) (cb : CbEnv) (m : SessionManager)
    (c content source : String) (hwf : WF m) :
    WF (SessionManager.sendMessage env cb m c content source).2.1 := by
  cases hcs : lookupA m.clientSessions c with
  | none => simpa [SessionManager.sendMessage, hcs] using hwf
  | some n =>
    cases hls : lookupA m.sessions n with
    | none => simpa [SessionManager.sendMessage, hcs, hls] using hwf
    | some s =>
      simp only [SessionManager.sendMessage, hcs, hls]
      refine ⟨?_, hwf.2.1, ?_⟩
      · exact nodup_keys_updateA n _ hwf.1
      · intro p hp
        rcases mem_updateA hp with hold | hnew
        · exact hwf.2.2 p hold
        · rw [hnew]
          exact List.Nodup.sublist
            (List.Sublist.map Prod.fst
              (sendMessage_subscribers_sublist env cb m.db s content source))
            (hwf.2.2 (n, s) (lookupA_mem hls))

theorem wf_archiveM (m : SessionManager) (name : String) (hwf : WF m) :
    WF (m.archiveSession name).2.1 := by
  cases hls : lookupA m.sessions name with
  | none => simpa [SessionManager.archiveSession, hls] using hwf
  | some s =>
    simp only [SessionManager.archiveSession, hls]
    refine ⟨nodup_keys_eraseA name hwf.1, hwf.2.1, ?_⟩
    intro p hp
    exact hwf.2.2 p ((eraseA_sublist _ _).subset hp)

theorem wf_deleteM (m : SessionManager) (name : String) (hwf : WF m) :
    WF (m.deleteSession name).2.1 := by
  cases hls : lookupA m.sessions name with
  | none => simpa [SessionManager.deleteSession, hls] using hwf
  | some s =>
    simp only [SessionManager.deleteSession, hls]
    refine ⟨nodup_keys_eraseA name hwf.1, hwf.2.1, ?_⟩
    intro p hp
    exact hwf.2.2 p ((eraseA_sublist _ _).subset hp)

theorem wf_cleanupM (m : SessionManager) (hwf : WF m) : WF m.cleanup.1 := by
  refine ⟨?_, hwf.2.1, ?_⟩
  · exact List.Nodup.sublist (List.Sublist.map Prod.fst (List.filter_sublist _)) hwf.1
  · intro p hp
    exact hwf.2.2 p (List.mem_of_mem_filter hp)

theorem wf_renameM (m : SessionManager) (name title : String) (hwf : WF m) :
    WF (m.renameSession name title).2 := by
  cases hgb : sessionRepo.getByName m.db name with
  | none => simpa [SessionManager.renameSession, hgb] using hwf
  | some s =>
    simp only [SessionManager.renameSession, hgb]
    exact ⟨hwf.1, hwf.2.1, hwf.2.2⟩

theorem wf_unarchiveM (m : SessionManager) (name : String) (hwf : WF m) :
    WF (m.unarchiveSession name).2 := ⟨hwf.1, hwf.2.1, hwf.2.2⟩

theorem wf_stepOp (env : EngineEnv) (cb : CbEnv) (op : Op) (m : SessionManager)
    (hwf : WF m) : WF (stepOp env cb op m) := by
  cases op with
  | getOrCreate n c => exact wf_getOrCreateSession m n c hwf
  | subscribe c n ct k => exact wf_subscribeClient m c n ct k hwf
  | unsubscribe c => exact wf_unsubscribeClient m c hwf
  | send c content source => exact wf_sendMessageM env cb m c content source hwf
  | archive n => exact wf_archiveM m n hwf
  | deleteOp n => exact wf_deleteM m n hwf
  | cleanup => exact wf_cleanupM m hwf
  | rename n t => exact wf_renameM m n t hwf
  | unarchive n => exact wf_unarchiveM m n hwf

theorem liveInstance_unsubscribeClient (m : SessionManager) (c name : String) :
    liveInstance (m.unsubscribeClient c) name = liveInstance m name := by
  cases hcs : lookupA m.clientSessions c with
  | none => simp [SessionManager.unsubscribeClient, hcs]
  | some n0 =>
    cases hls : lookupA m.sessions n0 with
    | none => simp [SessionManager.unsubscribeClient, hcs, hls, liveInstance]
    | some s =>
      simp only [SessionManager.unsubscribeClient, hcs, hls, liveInstance]
      rw [lookupA_updateA]
      by_cases hn : name = n0
      · subst hn
        rw [hls]
        simp [ManagedSession.unsubscribe]
      · rw [if_neg hn]

theorem liveInstance_getOrCreate (m : SessionManager) (n c name : String)
    (hsome : (liveInstance m name).isSome) :
    liveInstance (m.getOrCreateSession n c).2 name = liveInstance m name := by
  cases hls : lookupA m.sessions n with
  | some s => simp [SessionManager.getOrCreateSession, hls]
  | none =>
    have hne : name ≠ n := by
      intro h
      subst h
      rw [liveInstance, hls] at hsome
      simp at hsome
    cases hgb : sessionRepo.getByName m.db n with
    | some row =>
      simp only [SessionManager.getOrCreateSession, hls,
        sessionRepo.getOrCreateByName, hgb, liveInstance]
      rw [lookupA_append_one_ne _ hne]
    | none =>
      cases hcoll : m.db.sessions.any (fun s =>
          s.name == (if n ≠ "" then slugify n else m.db.genName)) with
      | true =>
        simp only [SessionManager.getOrCreateSession, hls,
          sessionRepo.getOrCreateByName, hgb, sessionRepo.create, hcoll,
          eq_self_iff_true, if_true]
      | false =>
        simp only [SessionManager.getOrCreateSession, hls,
          sessionRepo.getOrCreateByName, hgb, sessionRepo.create, hcoll,
          Bool.false_eq_true, if_false, liveInstance]
        rw [lookupA_append_one_ne _ hne]

theorem liveInstance_subscribeClient (m : SessionManager) (c n : String)
    (ct : ClientType) (k : Nat) (name : String)
    (hsome : (liveInstance m name).isSome) :
    liveInstance (m.subscribeClient c n ct k).2 name = liveInstance m name := by
  have h1 := liveInstance_unsubscribeClient m c name
  have hsome1 : (liveInstance (m.unsubscribeClient c) name).isSome := by
    rw [h1]; exact hsome
  have h2 := liveInstance_getOrCreate (m.unsubscribeClient c) n ct.label name hsome1
  cases hok : ((m.unsubscribeClient c).getOrCreateSession n ct.label).1 with
  | error e =>
    simp only [SessionManager.subscribeClient, hok]
    rw [h2, h1]
  | ok s =>
    have hlook := getOrCreateSession_ok_lookup _ n ct.label s hok
    simp only [SessionManager.subscribeClient, hok, liveInstance]
    rw [lookupA_updateA]
    by_cases hn : name = n
    · subst hn
      rw [hlook]
      have h3 := h2.trans h1
      simp only [liveInstance, hlook, Option.map_some'] at h3
      rw [if_pos rfl, ← h3]
      simp [ManagedSession.subscribe]
    · rw [if_neg hn]
      have h3 := h2.trans h1
      simp only [liveInstance] at h3
      exact h3

theorem liveInstance_sendMessageM (env : EngineEnv) (cb : CbEnv) (m : SessionManager)
    (c content source name : String) :
    liveInstance (SessionManager.sendMessage env cb m c content source).2.1 name =
      liveInstance m name := by
  cases hcs : lookupA m.clientSessions c with
  | none => simp [SessionManager.sendMessage, hcs]
  | some n0 =>
    cases hls : lookupA m.sessions n0 with
    | none => simp [SessionManager.sendMessage, hcs, hls]
    | some s =>
      simp only [SessionManager.sendMessage, hcs, hls, liveInstance]
      rw [lookupA_updateA]
      by_cases hn : name = n0
      · subst hn
        rw [hls]
        simp [sendMessage_instanceId]
      · rw [if_neg hn]

theorem liveInstance_archive (m : SessionManager) (n0 name : String) (hne : n0 ≠ name) :
    liveInstance (m.archiveSession n0).2.1 name = liveInstance m name := by
  cases hls : lookupA m.sessions n0 with
  | none => simp [SessionManager.archiveSession, hls, liveInstance]
  | some s =>
    simp only [SessionManager.archiveSession, hls, liveInstance]
    rw [lookupA_eraseA_ne _ (fun h => hne h.symm)]

theorem liveInstance_delete (m : SessionManager) (n0 name : String) (hne : n0 ≠ name) :
    liveInstance (m.deleteSession n0).2.1 name = liveInstance m name := by
  cases hls : lookupA m.sessions n0 with
  | none => simp [SessionManager.deleteSession, hls, liveInstance]
  | some s =>
    simp only [SessionManager.deleteSession, hls, liveInstance]
    rw [lookupA_eraseA_ne _ (fun h => hne h.symm)]

theorem liveInstance_cleanup (m : SessionManager) (name : String) (s : ManagedSession)
    (hwf : WF m) (hlook : lookupA m.sessions name = some s)
    (hne : s.subscribers.isEmpty = false) :
    liveInstance m.cleanup.1 name = liveInstance m name := by
  simp only [SessionManager.cleanup, liveInstance]
  rw [lookupA_filter_of_pred]
  intro p hp hpk
  have hpeq : p = (name, p.2) := by
    cases p with
    | mk a b => simp at hpk; rw [hpk]
  have hp2 : lookupA m.sessions name = some p.2 :=
    lookupA_of_mem_nodup hwf.1 (hpeq ▸ hp)
  rw [hlook] at hp2
  have : s = p.2 := Option.some.inj hp2
  rw [← this]
  simp [hne]

theorem liveInstance_rename (m : SessionManager) (n0 t name : String) :
    liveInstance (m.renameSession n0 t).2 name = liveInstance m name := by
  cases hgb : sessionRepo.getByName m.db n0 with
  | none => simp [SessionManager.renameSession, hgb]
  | some s => simp [SessionManager.renameSession, hgb, liveInstance]

theorem liveInstance_unarchive (m : SessionManager) (n0 name : String) :
    liveInstance (m.unarchiveSession n0).2 name = liveInstance m name := rfl

theorem liveInstance_stepOp (env : EngineEnv) (cb : CbEnv) (op : Op)
    (m : SessionManager) (name : String) (i : Nat) (hwf : WF m)
    (hlive : liveInstance m name = some i) (hnr : removesName m op name = false) :
    liveInstance (stepOp env cb op m) name = some i := by
  cases op with
  | getOrCreate n c =>
    rw [stepOp, liveInstance_getOrCreate m n c name (by simp [hlive])]
    exact hlive
  | subscribe c n ct k =>
    rw [stepOp, liveInstance_subscribeClient m c n ct k name (by simp [hlive])]
    exact hlive
  | unsubscribe c =>
    rw [stepOp, liveInstance_unsubscribeClient]
    exact hlive
  | send c content source =>
    rw [stepOp, liveInstance_sendMessageM]
    exact hlive
  | archive n =>
    have hne : n ≠ name := by simpa [removesName] using hnr
    rw [stepOp, liveInstance_archive m n name hne]
    exact hlive
  | deleteOp n =>
    have hne : n ≠ name := by simpa [removesName] using hnr
    rw [stepOp, liveInstance_delete m n name hne]
    exact hlive
  | cleanup =>
    cases hlook : lookupA m.sessions name with
    | none =>
      rw [liveInstance, hlook] at hlive
      exact absurd hlive (by simp)
    | some s =>
      simp only [removesName, hlook] at hnr
      rw [stepOp, liveInstance_cleanup m name s hwf hlook hnr]
      exact hlive
  | rename n t =>
    rw [stepOp, liveInstance_rename]
    exact hlive
  | unarchive n =>
    rw [stepOp, liveInstance_unarchive]
    exact hlive

theorem liveInstance_stepOps (env : EngineEnv) (cb : CbEnv) (ops : List Op) :
    ∀ (m : SessionManager) (name : String) (i : Nat), WF m →
      liveInstance m name = some i → NoRemoval env cb name m ops →
      liveInstance (stepOps env cb ops m) name = some i ∧
      WF (stepOps env cb ops m) := by
  induction ops with
  | nil => intro m name i hwf hlive _; exact ⟨hlive, hwf⟩
  | cons op rest ih =>
    intro m name i hwf hlive hnr
    obtain ⟨hnr1, hnr2⟩ := hnr
    exact ih (stepOp env cb op m) name i (wf_stepOp env cb op m hwf)
      (liveInstance_stepOp env cb op m name i hwf hlive hnr1) hnr2

/-- **C1** (confirmed).  Starting from a well-formed registry, if
`getOrCreateSession name` returns the Managed Session `s1`, then after
*any* sequence of registry operations that never removes `name`
(`NoRemoval` rules out `archiveSession name`, `deleteSession name`, and
a `cleanup` sweeping a subscriber-less `name`), a second
`getOrCreateSession name` returns a session with the same object
identity and leaves the registry state completely unchanged — so no
second Managed Session is ever created for the name.  Moreover the
reached registry is well-formed, and its name-to-session map holds
exactly one entry under `name` (never two Managed Sessions under one
name). -/
theorem c1_at_most_one_live_instance (env : EngineEnv) (cb : CbEnv)
    (m0 : SessionManager) (name createdBy1 createdBy2 : String) (ops : List Op)
    (s1 : ManagedSession) (hwf : WF m0)
    (h1 : (m0.getOrCreateSession name createdBy1).1 = .ok s1)
    (hnr : NoRemoval env cb name (m0.getOrCreateSession name createdBy1).2 ops) :
    (∃ s2, (stepOps env cb ops (m0.getOrCreateSession name createdBy1).2).getOrCreateSession
        name createdBy2 =
        (.ok s2, stepOps env cb ops (m0.getOrCreateSession name createdBy1).2) ∧
      s2.instanceId = s1.instanceId) ∧
    WF (stepOps env cb ops (m0.getOrCreateSession name createdBy1).2) ∧
    countKeyA (stepOps env cb ops (m0.getOrCreateSession name createdBy1).2).sessions
      name = 1 := by
  have hwf1 := wf_getOrCreateSession m0 name createdBy1 hwf
  have hlook1 := getOrCreateSession_ok_lookup m0 name createdBy1 s1 h1
  have hlive1 : liveInstance (m0.getOrCreateSession name createdBy1).2 name =
      some s1.instanceId := by
    rw [liveInstance, hlook1]
    rfl
  obtain ⟨hlive2, hwf2⟩ :=
    liveInstance_stepOps env cb ops _ name s1.instanceId hwf1 hlive1 hnr
  set M := stepOps env cb ops (m0.getOrCreateSession name createdBy1).2 with hM
  cases hlook2 : lookupA M.sessions name with
  | none =>
    rw [liveInstance, hlook2] at hlive2
    exact absurd hlive2 (by simp)
  | some s2 =>
    rw [liveInstance, hlook2] at hlive2
    refine ⟨⟨s2, ?_, ?_⟩, hwf2, ?_⟩
    · simp [SessionManager.getOrCreateSession, hlook2]
    · simpa using hlive2
    · exact countKeyA_of_nodup hwf2.1 (by simp [hlook2])

theorem c1_at_most_one_live_instance_witness :
    (∃ s2, (stepOps envW cbW [Op.subscribe "c" "s" .web 0]
        (mgr0.getOrCreateSession "s" "web").2).getOrCreateSession "s" "web" =
        (.ok s2, stepOps envW cbW [Op.subscribe "c" "s" .web 0]
          (mgr0.getOrCreateSession "s" "web").2) ∧
      s2.instanceId = (ManagedSession.init 0 0 "s").instanceId) ∧
    WF (stepOps envW cbW [Op.subscribe "c" "s" .web 0]
      (mgr0.getOrCreateSession "s" "web").2) ∧
    countKeyA (stepOps envW cbW [Op.subscribe "c" "s" .web 0]
      (mgr0.getOrCreateSession "s" "web").2).sessions "s" = 1 :=
  c1_at_most_one_live_instance envW cbW mgr0 "s" "web" "web"
    [Op.subscribe "c" "s" .web 0] (ManagedSession.init 0 0 "s")
    (by decide) rfl ⟨rfl, trivial⟩

end MyAgentive
